import Mathlib

/-!
Verification of the NADE core transport engine
(`src/nade_flutter/native/src/nade_core.c` and
`src/nade_flutter/native/src/reed_solomon.c`).

The C sources are shallowly embedded here:

* byte arrays (`uint8_t[n]`) become `List Nat` with every element < 256;
  16-bit PCM samples (`int16_t`) become `Int`;
* machine integers are modelled as `Nat` with explicit `% 2 ^ w`
  reductions at the points where the C code can wrap
  (`uint64_t` counters, `uint16_t` sequence numbers and lengths,
  `uint8_t` bytes);
* the two large Galois-field lookup tables of `reed_solomon.c`
  (`uint8_t gf_exp[512]`, `uint8_t gf_log[256]`) are represented as a
  single natural number holding the bytes of the array in base 256
  (byte `i` of the array is `(table >>> (8 * i)) % 256`); the tables are
  built by the same iteration as `gf_init`;
* the Monocypher primitives (`crypto_x25519`,
  `crypto_x25519_public_key`, `crypto_aead_ctx` seal/open) are not part
  of this repository, so functions of their type are taken as explicit
  parameters, documented with their contract from the specification;
  everything else (SHA-256, HMAC, HKDF, ADPCM, framing, session logic,
  Reed-Solomon) is translated from the C sources;
* the global session state guarded by `g_session_mutex` is a `Global`
  structure; since every public entry point holds the session mutex for
  the whole critical section, an interleaving of concurrent calls is
  modelled as a sequence of atomic steps.
-/

/-! ## Byte-level helpers -/

/-- Little-endian byte `i` of a natural number (`(x >> (8*i)) & 0xFF`). -/
def byteAt (x i : Nat) : Nat := (x >>> (8 * i)) % 256

/-- `is_all_zero` from `nade_core.c`: true iff every byte is zero. -/
def isAllZero (l : List Nat) : Bool := l.all (· = 0)

/-- `compose_nonce` from `nade_core.c`: copy the 12-byte base and XOR the
little-endian 64-bit counter into bytes 4..11. -/
def composeNonce (base : List Nat) (counter : Nat) : List Nat :=
  base.take 4 ++
    (List.range 8).map (fun i => base.getD (4 + i) 0 ^^^ byteAt counter i)

theorem byteAt_lt (x i : Nat) : byteAt x i < 256 := Nat.mod_lt _ (by omega)

/-- Reading the 8 little-endian bytes of a `Nat` below `2^(8*n)` determines
the number. -/
theorem le_bytes_inj (n : Nat) :
    ∀ c1 c2 : Nat, c1 < 256 ^ n → c2 < 256 ^ n →
      (∀ i < n, byteAt c1 i = byteAt c2 i) → c1 = c2 := by
  induction n with
  | zero =>
      intro c1 c2 h1 h2 _
      simp only [pow_zero, Nat.lt_one_iff] at h1 h2
      omega
  | succ n ih =>
      intro c1 c2 h1 h2 hb
      have hlow : c1 % 256 = c2 % 256 := by
        have := hb 0 (Nat.succ_pos n)
        simpa [byteAt] using this
      have hdiv1 : c1 / 256 < 256 ^ n := by
        have : c1 < 256 ^ n * 256 := by
          calc c1 < 256 ^ (n + 1) := h1
          _ = 256 ^ n * 256 := by ring
        exact Nat.div_lt_of_lt_mul (by omega)
      have hdiv2 : c2 / 256 < 256 ^ n := by
        have : c2 < 256 ^ n * 256 := by
          calc c2 < 256 ^ (n + 1) := h2
          _ = 256 ^ n * 256 := by ring
        exact Nat.div_lt_of_lt_mul (by omega)
      have hbytes : ∀ i < n, byteAt (c1 / 256) i = byteAt (c2 / 256) i := by
        intro i hi
        have := hb (i + 1) (by omega)
        simp only [byteAt, Nat.shiftRight_eq_div_pow] at this ⊢
        have e1 : c1 / 2 ^ (8 * (i + 1)) = c1 / 256 / 2 ^ (8 * i) := by
          rw [Nat.div_div_eq_div_mul]
          congr 1
          rw [Nat.mul_succ, Nat.pow_add]
          ring
        have e2 : c2 / 2 ^ (8 * (i + 1)) = c2 / 256 / 2 ^ (8 * i) := by
          rw [Nat.div_div_eq_div_mul]
          congr 1
          rw [Nat.mul_succ, Nat.pow_add]
          ring
        rw [e1, e2] at this
        exact this
      have hhigh := ih (c1 / 256) (c2 / 256) hdiv1 hdiv2 hbytes
      omega

/-- XOR by a fixed byte is injective. -/
theorem xor_left_cancel {a x y : Nat} (h : a ^^^ x = a ^^^ y) : x = y := by
  have := congrArg (a ^^^ ·) h
  simpa [← Nat.xor_assoc] using this

/-- `compose_nonce` is injective in the counter while the counter has not
wrapped: two distinct 64-bit counter values give distinct nonces for the
same base. -/
theorem composeNonce_inj (base : List Nat) {c1 c2 : Nat}
    (h1 : c1 < 2 ^ 64) (h2 : c2 < 2 ^ 64)
    (h : composeNonce base c1 = composeNonce base c2) : c1 = c2 := by
  have hmap :
      (List.range 8).map (fun i => base.getD (4 + i) 0 ^^^ byteAt c1 i) =
      (List.range 8).map (fun i => base.getD (4 + i) 0 ^^^ byteAt c2 i) :=
    List.append_cancel_left h
  have hbytes : ∀ i < 8, byteAt c1 i = byteAt c2 i := by
    intro i hi
    have := congrArg (fun l => l.getD i 0) hmap
    simp only [List.getD_eq_getElem?_getD, List.getElem?_map,
      List.getElem?_range hi, Option.map_some, Option.getD_some] at this
    exact xor_left_cancel this
  have h256 : (256 : Nat) ^ 8 = 2 ^ 64 := by norm_num
  exact le_bytes_inj 8 c1 c2 (h256 ▸ h1) (h256 ▸ h2) hbytes

/-! ## SHA-256, HMAC-SHA256 and HKDF (translated from `nade_core.c`)

The C code keeps a streaming context (`nade_sha256_ctx_t`); every use in
the repository hashes a complete in-memory message, so the embedding is
the equivalent one-shot function: pad the message exactly as
`sha256_final_ctx` does, then compress 64-byte blocks in order. -/

/-- The round-constant table `k_sha256_table` from `nade_core.c`. -/
def kSha256Table : List Nat :=
  [1116352408, 1899447441, 3049323471, 3921009573,
   961987163, 1508970993, 2453635748, 2870763221,
   3624381080, 310598401, 607225278, 1426881987,
   1925078388, 2162078206, 2614888103, 3248222580,
   3835390401, 4022224774, 264347078, 604807628,
   770255983, 1249150122, 1555081692, 1996064986,
   2554220882, 2821834349, 2952996808, 3210313671,
   3336571891, 3584528711, 113926993, 338241895,
   666307205, 773529912, 1294757372, 1396182291,
   1695183700, 1986661051, 2177026350, 2456956037,
   2730485921, 2820302411, 3259730800, 3345764771,
   3516065817, 3600352804, 4094571909, 275423344,
   430227734, 506948616, 659060556, 883997877,
   958139571, 1322822218, 1537002063, 1747873779,
   1955562222, 2024104815, 2227730452, 2361852424,
   2428436474, 2756734187, 3204031479, 3329325298]

/-- `rotr32`: 32-bit rotate right (inputs are kept below `2^32`). -/
def rotr32 (value bits : Nat) : Nat :=
  (value >>> bits) ||| ((value <<< (32 - bits)) % 2 ^ 32)

/-- Bitwise complement on 32-bit words (`~x` on `uint32_t`). -/
def not32 (x : Nat) : Nat := 0xFFFFFFFF ^^^ x

/-- `sha256_ch`. -/
def sha256ch (x y z : Nat) : Nat := (x &&& y) ^^^ (not32 x &&& z)

/-- `sha256_maj`. -/
def sha256maj (x y z : Nat) : Nat := (x &&& y) ^^^ (x &&& z) ^^^ (y &&& z)

/-- `sha256_sigma0`. -/
def sha256sigma0 (x : Nat) : Nat := rotr32 x 2 ^^^ rotr32 x 13 ^^^ rotr32 x 22

/-- `sha256_sigma1`. -/
def sha256sigma1 (x : Nat) : Nat := rotr32 x 6 ^^^ rotr32 x 11 ^^^ rotr32 x 25

/-- `sha256_gamma0`. -/
def sha256gamma0 (x : Nat) : Nat := rotr32 x 7 ^^^ rotr32 x 18 ^^^ (x >>> 3)

/-- `sha256_gamma1`. -/
def sha256gamma1 (x : Nat) : Nat := rotr32 x 17 ^^^ rotr32 x 19 ^^^ (x >>> 10)

/-- The eight `uint32_t` state words of `nade_sha256_ctx_t`. -/
structure Sha256State where
  s0 : Nat
  s1 : Nat
  s2 : Nat
  s3 : Nat
  s4 : Nat
  s5 : Nat
  s6 : Nat
  s7 : Nat
  deriving Repr, DecidableEq

/-- Initial state from `sha256_init_ctx`. -/
def sha256InitState : Sha256State :=
  ⟨0x6a09e667, 0xbb67ae85, 0x3c6ef372, 0xa54ff53a,
   0x510e527f, 0x9b05688c, 0x1f83d9ab, 0x5be0cd19⟩

/-- First 16 words of the message schedule: big-endian load of the block. -/
def sha256LoadWords (block : List Nat) : List Nat :=
  (List.range 16).map fun i =>
    (block.getD (4 * i) 0 <<< 24) ||| (block.getD (4 * i + 1) 0 <<< 16) |||
      (block.getD (4 * i + 2) 0 <<< 8) ||| block.getD (4 * i + 3) 0

/-- One step of the schedule-extension loop (`i = 16..63` in
`sha256_process_block`): append `w[i]` computed from `w[i-2]`, `w[i-7]`,
`w[i-15]`, `w[i-16]`, with `uint32_t` wrap-around. -/
def sha256Extend (w : List Nat) : Nat → List Nat
  | 0 => w
  | fuel + 1 =>
      sha256Extend
        (w ++ [(sha256gamma1 (w.getD (w.length - 2) 0) + w.getD (w.length - 7) 0 +
                sha256gamma0 (w.getD (w.length - 15) 0) + w.getD (w.length - 16) 0) % 2 ^ 32])
        fuel

/-- The 64-round compression loop of `sha256_process_block`. -/
def sha256Rounds (w : List Nat) (st : Sha256State) : Sha256State :=
  (List.range 64).foldl
    (fun st i =>
      let t1 := (st.s7 + sha256sigma1 st.s4 + sha256ch st.s4 st.s5 st.s6 +
                 kSha256Table.getD i 0 + w.getD i 0) % 2 ^ 32
      let t2 := (sha256sigma0 st.s0 + sha256maj st.s0 st.s1 st.s2) % 2 ^ 32
      ⟨(t1 + t2) % 2 ^ 32, st.s0, st.s1, st.s2,
       (st.s3 + t1) % 2 ^ 32, st.s4, st.s5, st.s6⟩)
    st

/-- `sha256_process_block`: expand the schedule, run 64 rounds, add the
result into the running state (mod `2^32`). -/
def sha256ProcessBlock (st : Sha256State) (block : List Nat) : Sha256State :=
  let w := sha256Extend (sha256LoadWords block) 48
  let r := sha256Rounds w st
  ⟨(st.s0 + r.s0) % 2 ^ 32, (st.s1 + r.s1) % 2 ^ 32,
   (st.s2 + r.s2) % 2 ^ 32, (st.s3 + r.s3) % 2 ^ 32,
   (st.s4 + r.s4) % 2 ^ 32, (st.s5 + r.s5) % 2 ^ 32,
   (st.s6 + r.s6) % 2 ^ 32, (st.s7 + r.s7) % 2 ^ 32⟩

/-- Message padding as performed by `sha256_final_ctx`: append `0x80`,
zero bytes up to 56 mod 64, then the bit length as 8 big-endian bytes. -/
def sha256Pad (msg : List Nat) : List Nat :=
  let zeros := (119 - msg.length % 64) % 64
  msg ++ [0x80] ++ List.replicate zeros 0 ++
    (List.range 8).map (fun j => byteAt (msg.length * 8) (7 - j))

/-- Split a padded message into 64-byte blocks. -/
def sha256Blocks (data : List Nat) : List (List Nat) :=
  if h : data = [] then []
  else data.take 64 :: sha256Blocks (data.drop 64)
termination_by data.length
decreasing_by
  simp only [List.length_drop]
  have : data.length ≠ 0 := fun hn => h (List.length_eq_zero.mp hn)
  omega

/-- Big-endian bytes of one state word, as written by `sha256_final_ctx`. -/
def sha256WordBytes (w : Nat) : List Nat :=
  [(w >>> 24) % 256, (w >>> 16) % 256, (w >>> 8) % 256, w % 256]

/-- `sha256_digest`: one-shot SHA-256 of a byte string. -/
def sha256 (msg : List Nat) : List Nat :=
  let final := (sha256Blocks (sha256Pad msg)).foldl sha256ProcessBlock sha256InitState
  sha256WordBytes final.s0 ++ sha256WordBytes final.s1 ++ sha256WordBytes final.s2 ++
    sha256WordBytes final.s3 ++ sha256WordBytes final.s4 ++ sha256WordBytes final.s5 ++
    sha256WordBytes final.s6 ++ sha256WordBytes final.s7

theorem sha256_length (msg : List Nat) : (sha256 msg).length = 32 := by
  simp [sha256, sha256WordBytes]

/-- `hmac_sha256` (via `hmac_sha256_init_ctx` / update / final): hash an
over-long key, zero-pad to the 64-byte block, XOR with the `ipad`/`opad`
constants and run the two nested hashes. -/
def hmacSha256 (key data : List Nat) : List Nat :=
  let key' := if key.length > 64 then sha256 key else key
  let keyBlock := key' ++ List.replicate (64 - key'.length) 0
  let ipad := keyBlock.map (· ^^^ 0x36)
  let opad := keyBlock.map (· ^^^ 0x5c)
  sha256 (opad ++ sha256 (ipad ++ data))

theorem hmacSha256_length (key data : List Nat) :
    (hmacSha256 key data).length = 32 := sha256_length _

/-- The output-expansion loop of `hkdf_sha256`: while fewer than
`remaining` bytes are produced, compute
`T = HMAC(prk, T_prev ‖ info ‖ counter)` and copy `min 32 remaining`
bytes.  `counter` is a `uint8_t` in the C code, hence the `% 256`. -/
def hkdfExpand (prk info prev : List Nat) (counter remaining : Nat) : List Nat :=
  if remaining = 0 then []
  else
    let t := hmacSha256 prk (prev ++ info ++ [counter % 256])
    t.take (min 32 remaining) ++
      hkdfExpand prk info t (counter + 1) (remaining - min 32 remaining)
termination_by remaining
decreasing_by omega

theorem hkdfExpand_length (info : List Nat) :
    ∀ remaining prk prev counter,
      (hkdfExpand prk info prev counter remaining).length = remaining := by
  intro remaining
  induction remaining using Nat.strong_induction_on with
  | _ remaining ih =>
    intro prk prev counter
    rw [hkdfExpand]
    by_cases h : remaining = 0
    · simp [h]
    · simp only [h, if_false, List.length_append, List.length_take,
        hmacSha256_length]
      have hrec := ih (remaining - min 32 remaining) (by omega)
        prk (hmacSha256 prk (prev ++ info ++ [counter % 256])) (counter + 1)
      rw [hrec]
      omega

/-- `hkdf_sha256`: RFC 5869 extract-and-expand.  Fails when the requested
length is zero or exceeds `255 * 32`; an absent salt is replaced by 32
zero bytes. -/
def hkdfSha256 (okmLen : Nat) (ikm salt info : List Nat) : Option (List Nat) :=
  if okmLen = 0 ∨ okmLen > 255 * 32 then none
  else
    let salt' := if salt = [] then List.replicate 32 0 else salt
    let prk := hmacSha256 salt' ikm
    some (hkdfExpand prk info [] 1 okmLen)

/-- When the length guard passes, `hkdf_sha256` succeeds and returns
exactly the requested number of bytes. -/
theorem hkdfSha256_length_some {okmLen : Nat} (h1 : 1 ≤ okmLen)
    (h2 : okmLen ≤ 8160) (ikm salt info : List Nat) :
    ∃ okm, hkdfSha256 okmLen ikm salt info = some okm ∧ okm.length = okmLen := by
  have hguard : ¬(okmLen = 0 ∨ okmLen > 255 * 32) := by omega
  rw [hkdfSha256, if_neg hguard]
  exact ⟨_, rfl, hkdfExpand_length _ _ _ _ _⟩

/-! ## Reed-Solomon RS(255,223) (translated from `reed_solomon.c`)

The `uint8_t gf_exp[512]` and `uint8_t gf_log[256]` arrays are
represented as base-256 natural numbers (byte `i` of the array is
`(table >>> (8 * i)) % 256`), built by the same iteration as `gf_init`:
`x` starts at 1 and is doubled 255 times, reducing by the primitive
polynomial `0x11D` whenever bit 8 becomes set; `gf_exp[i] = x_i`,
`gf_log[x_i] = i`, and the exp table is duplicated so that indices up to
509 (the largest the code ever uses) read `gf_exp[i - 255]`. -/

/-- One doubling step of `gf_init`: `x <<= 1; if (x & 0x100) x ^= 0x11D`. -/
def gfStep (x : Nat) : Nat :=
  let y := x <<< 1
  if y &&& 0x100 ≠ 0 then y ^^^ 0x11D else y

/-- The first 255 bytes of `gf_exp`, packed base-256 (fold carrying the
running power `x` and the running byte position). -/
def gfExpLow : Nat :=
  ((List.range 255).foldl (fun (st : Nat × Nat) i => (gfStep st.1, st.2 + st.1 <<< (8 * i)))
    (1, 0)).2

/-- The full `gf_exp` array (bytes 0..509: the low half duplicated, as the
extension loop of `gf_init` does). -/
def gfExpTable : Nat := gfExpLow + gfExpLow <<< (8 * 255)

/-- The `gf_log` array packed base-256 (`gf_log[x_i] = i`, `gf_log[0] = 0`). -/
def gfLogTable : Nat :=
  ((List.range 255).foldl (fun (st : Nat × Nat) i => (gfStep st.1, st.2 + i <<< (8 * st.1)))
    (1, 0)).2

/-- Array read `gf_exp[i]`. -/
def gfExp (i : Nat) : Nat := byteAt gfExpTable i

/-- Array read `gf_log[x]`. -/
def gfLog (x : Nat) : Nat := byteAt gfLogTable x

/-- `gf_mul`. -/
def gfMul (a b : Nat) : Nat :=
  if a = 0 ∨ b = 0 then 0 else gfExp (gfLog a + gfLog b)

/-- `gf_inv`. -/
def gfInv (a : Nat) : Nat := if a = 0 then 0 else gfExp (255 - gfLog a)

/-- The in-place loop of `poly_mul_term` (`d` runs from `degree` down to 0):
`poly[d+1] ^= poly[d]; poly[d] = gf_mul(poly[d], root)`. -/
def polyMulTermGo (root : Nat) : Nat → List Nat → List Nat
  | 0, poly =>
      let p1 := poly.set 1 (poly.getD 1 0 ^^^ poly.getD 0 0)
      p1.set 0 (gfMul (p1.getD 0 0) root)
  | d + 1, poly =>
      let p1 := poly.set (d + 2) (poly.getD (d + 2) 0 ^^^ poly.getD (d + 1) 0)
      let p2 := p1.set (d + 1) (gfMul (p1.getD (d + 1) 0) root)
      polyMulTermGo root d p2

/-- `poly_mul_term`: multiply `poly` (of degree `degree`) by `(x - α^n)`. -/
def polyMulTerm (poly : List Nat) (degree n : Nat) : List Nat :=
  polyMulTermGo (gfExp n) degree poly

/-- `build_generator`: `g(x) = Π_{i=0}^{31} (x - α^(2+i))`.  (The code
passes `RS_GENERATOR_ROOT + i = 2 + i` as the *exponent*, so the actual
roots are `α^2 .. α^33`.)  The array has 33 entries, initially
`[1, 0, ..., 0]`. -/
def gfGenerator : List Nat :=
  (List.range 32).foldl (fun g i => polyMulTerm g i (2 + i))
    (1 :: List.replicate 32 0)

/-- The parity shift-register update for one data byte in `rs_encode`:
given feedback `fb`, the 32 parity bytes become
`par[j-1] := par[j] ^ gf_mul(fb, gen[32-j])` for `j = 1..31` and
`par[31] := gf_mul(fb, gen[0])`; when `fb = 0` the register just shifts. -/
def rsEncodeStep (par : List Nat) (dataByte : Nat) : List Nat :=
  let fb := dataByte ^^^ par.getD 0 0
  if fb ≠ 0 then
    (List.range 31).map (fun i => par.getD (i + 1) 0 ^^^ gfMul fb (gfGenerator.getD (31 - i) 0))
      ++ [gfMul fb (gfGenerator.getD 0 0)]
  else
    (List.range 31).map (fun i => par.getD (i + 1) 0) ++ [0]

/-- `rs_encode`: systematic encoding, output is `data ‖ parity[32]`.
Returns `[]` when the C function returns length 0 (empty or oversize
input). -/
def rsEncode (data : List Nat) : List Nat :=
  if data.length = 0 ∨ data.length > 223 then []
  else data ++ data.foldl rsEncodeStep (List.replicate 32 0)

/-- `compute_syndromes`: `S_i = Σ_j c_j · α^((2+i)(pad+j))` for
`i = 0..31`, with `pad = 255 - len` (the virtual leading zeros of the
shortened code enter through the initial `alpha_power`). -/
def computeSyndromes (cw : List Nat) : List Nat :=
  let pad := 255 - cw.length
  (List.range 32).map fun i =>
    let alpha := gfExp (2 + i)
    let ap0 := (List.range pad).foldl (fun ap _ => gfMul ap alpha) 1
    (cw.foldl (fun (st : Nat × Nat) c => (gfMul st.1 alpha, st.2 ^^^ gfMul c st.1))
      (ap0, 0)).2

/-- `syndromes_zero`. -/
def syndromesZero (s : List Nat) : Bool := s.all (· = 0)

/-- One iteration (`n`) of the Berlekamp-Massey loop.  The state carries
`(C, B, L, m, b)`; the polynomial update
`C[i+m] ^= gf_mul(coef, B[i])` is rendered as a map over all 33 array
positions. -/
def bmStep (synd : List Nat) (st : List Nat × List Nat × Nat × Nat × Nat) (n : Nat) :
    List Nat × List Nat × Nat × Nat × Nat :=
  let (c, b, l, m, bd) := st
  let d := (List.range l).foldl
    (fun d i => d ^^^ gfMul (c.getD (i + 1) 0) (synd.getD (n - (i + 1)) 0)) (synd.getD n 0)
  if d = 0 then (c, b, l, m + 1, bd)
  else
    let coef := gfMul d (gfInv bd)
    let c' := (List.range 33).map fun k =>
      if m ≤ k then c.getD k 0 ^^^ gfMul coef (b.getD (k - m) 0) else c.getD k 0
    if 2 * l ≤ n then (c', c, n + 1 - l, 1, d)
    else (c', b, l, m + 1, bd)

/-- `berlekamp_massey`: returns the error-locator coefficients
`sigma[0..L]` (the rest of the 33-byte array is zero) and its degree `L`. -/
def berlekampMassey (synd : List Nat) : List Nat × Nat :=
  let st := (List.range 32).foldl (bmStep synd)
    (1 :: List.replicate 32 0, 1 :: List.replicate 32 0, 0, 1, 1)
  let (c, _, l, _, _) := st
  (c.take (l + 1) ++ List.replicate (32 - l) 0, l)

/-- The scan of `chien_search` over the remaining positions `ps`,
collecting roots and stopping once `degree` roots are found. -/
def chienGo (sigma : List Nat) (degree n : Nat) (acc : List Nat) : List Nat → List Nat
  | [] => acc
  | i :: ps =>
      let pad := 255 - n
      let e := 255 - (pad + i)
      let sum := (List.range degree).foldl
        (fun s j => s ^^^ gfMul (sigma.getD (j + 1) 0) (gfExp (e * (j + 1) % 255)))
        (sigma.getD 0 0)
      if sum = 0 then
        let acc' := acc ++ [i]
        if degree ≤ acc'.length then acc' else chienGo sigma degree n acc' ps
      else chienGo sigma degree n acc ps

/-- `chien_search`: positions `i` (0-based in the shortened codeword) where
`σ(α^(255-(pad+i))) = 0`. -/
def chienSearch (sigma : List Nat) (degree n : Nat) : List Nat :=
  chienGo sigma degree n [] (List.range n)

/-- `forney_algorithm`: error values at the found positions.
`omega = S(x)·σ(x) mod x^32`; `σ'` keeps the odd-degree coefficients of
`σ` shifted down by one; both are evaluated at `α^(full_pos · j)` and the
result is scaled by `gf_exp[(255 - full_pos) % 255]`, exactly as the C
code does. -/
def forneyAlgorithm (synd sigma : List Nat) (sigmaDeg : Nat) (errorPos : List Nat)
    (n : Nat) : List Nat :=
  let omega := (List.range 32).map fun i =>
    (List.range (min sigmaDeg i + 1)).foldl
      (fun o j => o ^^^ gfMul (synd.getD (i - j) 0) (sigma.getD j 0)) 0
  let sigmaPrime := (List.range 33).map fun i =>
    if i + 1 ≤ sigmaDeg ∧ (i + 1) % 2 = 1 then sigma.getD (i + 1) 0 else 0
  let pad := 255 - n
  errorPos.map fun pos =>
    let fullPos := pad + pos
    let omegaVal := (List.range 32).foldl
      (fun v j => v ^^^ gfMul (omega.getD j 0) (gfExp (fullPos * j % 255))) 0
    let sigmaPrimeVal := (List.range (sigmaDeg + 1)).foldl
      (fun v j => v ^^^ gfMul (sigmaPrime.getD j 0) (gfExp (fullPos * j % 255))) 0
    if sigmaPrimeVal = 0 then 0
    else gfMul (gfMul (gfExp ((255 - fullPos) % 255)) omegaVal) (gfInv sigmaPrimeVal)

/-- `rs_decode`: returns `some (corrected codeword, number of errors)` on
success and `none` where the C function returns `-1`. -/
def rsDecode (cw : List Nat) : Option (List Nat × Nat) :=
  if cw.length ≤ 32 ∨ cw.length > 255 then none
  else
    let synd := computeSyndromes cw
    if syndromesZero synd then some (cw, 0)
    else
      let (sigma, numErrors) := berlekampMassey synd
      if numErrors > 16 then none
      else
        let errorPos := chienSearch sigma numErrors cw.length
        if errorPos.length ≠ numErrors then none
        else
          let errorVal := forneyAlgorithm synd sigma numErrors errorPos cw.length
          let corrected := (errorPos.zip errorVal).foldl
            (fun c pv => if pv.1 < c.length then c.set pv.1 (c.getD pv.1 0 ^^^ pv.2) else c)
            cw
          if syndromesZero (computeSyndromes corrected) then some (corrected, numErrors)
          else none

/-- `rs_check`. -/
def rsCheck (cw : List Nat) : Bool :=
  if cw.length ≤ 32 ∨ cw.length > 255 then false
  else syndromesZero (computeSyndromes cw)

/-! ## IMA ADPCM codec (translated from `nade_core.c`) -/

/-- `kStepTable` (89 entries). -/
def kStepTable : List Int :=
  [7, 8, 9, 10, 11, 12, 13, 14, 16,
   17, 19, 21, 23, 25, 28, 31, 34,
   37, 41, 45, 50, 55, 60, 66, 73,
   80, 88, 97, 107, 118, 130, 143, 157,
   173, 190, 209, 230, 253, 279, 307, 337,
   371, 408, 449, 494, 544, 598, 658, 724,
   796, 876, 963, 1060, 1166, 1282, 1411, 1552,
   1707, 1878, 2066, 2272, 2499, 2749, 3024, 3327,
   3660, 4026, 4428, 4871, 5358, 5894, 6484, 7132,
   7845, 8630, 9493, 10442, 11487, 12635, 13899, 15289,
   16818, 18500, 20350, 22385, 24623, 27086, 29794, 32767]

/-- `kIndexAdjust` (16 entries). -/
def kIndexAdjust : List Int :=
  [-1, -1, -1, -1, 2, 4, 6, 8,
   -1, -1, -1, -1, 2, 4, 6, 8]

/-- `clamp_int`. -/
def clampInt (value minV maxV : Int) : Int :=
  if value < minV then minV else if value > maxV then maxV else value

/-- `nade_adpcm_state_t`. -/
structure AdpcmState where
  predictor : Int
  index : Nat
  initialized : Bool
  deriving Repr, DecidableEq

/-- `reset_adpcm` result (and the state produced by `memset 0`). -/
def adpcmZero : AdpcmState := ⟨0, 0, false⟩

/-- The per-sample quantiser of `adpcm_encode_block`: compute the 4-bit
`nibble` for one sample and the updated predictor/index. -/
def adpcmEncodeSample (predictor : Int) (index : Nat) (sample : Int) :
    Nat × Int × Nat :=
  let diff := sample - predictor
  let step := kStepTable.getD index 0
  let n8 : Nat := if diff < 0 then 8 else 0
  let diff := if diff < 0 then -diff else diff
  let n4 : Nat := if diff ≥ step then 4 else 0
  let diff := if diff ≥ step then diff - step else diff
  let n2 : Nat := if diff ≥ step / 2 then 2 else 0
  let diff := if diff ≥ step / 2 then diff - step / 2 else diff
  let n1 : Nat := if diff ≥ step / 4 then 1 else 0
  let nibble := n8 + n4 + n2 + n1
  let delta := step / 8 + (if n4 = 4 then step else 0) +
    (if n2 = 2 then step / 2 else 0) + (if n1 = 1 then step / 4 else 0)
  let predictor := if n8 = 8 then predictor - delta else predictor + delta
  let predictor := clampInt predictor (-32768) 32767
  let index := (clampInt (Int.ofNat index + kIndexAdjust.getD nibble 0) 0 88).toNat
  (nibble, predictor, index)

/-- The nibble-packing loop of `adpcm_encode_block`.  State:
`(predictor, index, pending, out)` where `pending = some lowNibble`
plays the role of `high_nibble`/`current_byte`. -/
def adpcmEncodeGo : Int → Nat → Option Nat → List Nat → List Int → List Nat × Int × Nat
  | predictor, index, pending, out, [] =>
      (out ++ (match pending with | some lo => [lo] | none => []), predictor, index)
  | predictor, index, pending, out, sample :: rest =>
      let r := adpcmEncodeSample predictor index sample
      match pending with
      | none => adpcmEncodeGo r.2.1 r.2.2 (some r.1) out rest
      | some lo =>
          adpcmEncodeGo r.2.1 r.2.2 none (out ++ [lo ||| (r.1 <<< 4)]) rest

/-- `adpcm_encode_block`.  Returns the encoded bytes (`[]` when the C
function returns 0) together with the updated codec state; note that the
C code initialises the state from the first sample *before* the output
size check, so a failing call can still change the state. -/
def adpcmEncodeBlock (samples : List Int) (maxBytes : Nat) (st : AdpcmState) :
    List Nat × AdpcmState :=
  if samples.length = 0 ∨ maxBytes < 4 then ([], st)
  else
    let st1 := if st.initialized then st else ⟨samples.getD 0 0, 0, true⟩
    let encodedBytes := (samples.length + 1) / 2
    if maxBytes < 4 + encodedBytes then ([], st1)
    else
      let p16 := ((st1.predictor % 65536).toNat) % 65536
      let header := [p16 % 256, (p16 >>> 8) % 256, st1.index, 0]
      let r := adpcmEncodeGo st1.predictor st1.index none [] samples
      (header ++ r.1, ⟨r.2.1, r.2.2, true⟩)

/-- One decoded nibble of `adpcm_decode_block`. -/
def adpcmDecodeNibble (predictor : Int) (index : Nat) (nibble : Nat) : Int × Nat :=
  let step := kStepTable.getD index 0
  let delta := step / 8 + (if nibble &&& 4 ≠ 0 then step else 0) +
    (if nibble &&& 2 ≠ 0 then step / 2 else 0) + (if nibble &&& 1 ≠ 0 then step / 4 else 0)
  let predictor := if nibble &&& 8 ≠ 0 then predictor - delta else predictor + delta
  let predictor := clampInt predictor (-32768) 32767
  let index := (clampInt (Int.ofNat index + kIndexAdjust.getD nibble 0) 0 88).toNat
  (predictor, index)

/-- The byte loop of `adpcm_decode_block`: each byte yields its low then
its high nibble, until `maxSamples` samples are produced. -/
def adpcmDecodeGo : Int → Nat → Nat → List Int → List Nat → List Int × Int × Nat
  | predictor, index, _, out, [] => (out, predictor, index)
  | predictor, index, maxSamples, out, byte :: rest =>
      if out.length ≥ maxSamples then (out, predictor, index)
      else
        let r1 := adpcmDecodeNibble predictor index (byte % 16)
        if out.length + 1 ≥ maxSamples then (out ++ [r1.1], r1.1, r1.2)
        else
          let r2 := adpcmDecodeNibble r1.1 r1.2 ((byte >>> 4) % 16)
          adpcmDecodeGo r2.1 r2.2 maxSamples (out ++ [r1.1, r2.1]) rest

/-- `adpcm_decode_block`: decode `data` (4-byte header + nibbles) into at
most `maxSamples` samples; the codec state is written back unless the
function exits early. -/
def adpcmDecodeBlock (data : List Nat) (maxSamples : Nat) (st : AdpcmState) :
    List Int × AdpcmState :=
  if data.length < 4 ∨ maxSamples = 0 then ([], st)
  else
    let raw := data.getD 0 0 + 256 * data.getD 1 0
    let predictor : Int := if raw < 32768 then Int.ofNat raw else Int.ofNat raw - 65536
    let index := (clampInt (Int.ofNat (data.getD 2 0)) 0 88).toNat
    let r := adpcmDecodeGo predictor index maxSamples [] (data.drop 4)
    (r.1, ⟨r.2.1, r.2.2, true⟩)

/-! ## Session state and framing (translated from `nade_core.c`)

`nade_session_state_t`, the `g_config` record and the five byte/sample
rings become plain data.  Ring buffers follow the C overwrite policy: a
push to a full ring drops the oldest elements (`pushRing` keeps the last
`cap` elements).  The 4-FSK modulator state is intentionally not
modelled: it is made of `float` phase/power accumulators. -/

/-- `g_config` (`nade_config_t`). -/
structure Config where
  encrypt : Bool
  decrypt : Bool
  deriving Repr, DecidableEq

/-- `nade_session_state_t`.  `role` is the `nade_role_t` value
(0 none, 1 server, 2 client). -/
structure Session where
  active : Bool
  handshake_ready : Bool
  handshake_complete : Bool
  handshake_acknowledged : Bool
  expect_peer_static : Bool
  have_peer_static : Bool
  have_peer_ephemeral : Bool
  outbound_encrypted : Bool
  inbound_encrypted : Bool
  peer_accepts_encrypt : Bool
  peer_sends_encrypt : Bool
  role : Nat
  static_priv : List Nat
  static_pub : List Nat
  expected_peer_static : List Nat
  peer_static : List Nat
  eph_priv : List Nat
  eph_pub : List Nat
  peer_eph_pub : List Nat
  tx_key : List Nat
  rx_key : List Nat
  tx_nonce_base : List Nat
  rx_nonce_base : List Nat
  tx_counter : Nat
  rx_counter : Nat
  audio_seq : Nat
  last_handshake_ms : Nat
  last_keepalive_ms : Nat
  tx_aead_ready : Bool
  rx_aead_ready : Bool
  remote_hangup_requested : Bool
  enc_state : AdpcmState
  dec_state : AdpcmState
  deriving Repr, DecidableEq

/-- The all-zero session produced by `memset(&g_session, 0, ...)`:
every flag false, every byte array all-zero, every counter zero. -/
def zeroSession : Session where
  active := false
  handshake_ready := false
  handshake_complete := false
  handshake_acknowledged := false
  expect_peer_static := false
  have_peer_static := false
  have_peer_ephemeral := false
  outbound_encrypted := false
  inbound_encrypted := false
  peer_accepts_encrypt := false
  peer_sends_encrypt := false
  role := 0
  static_priv := List.replicate 32 0
  static_pub := List.replicate 32 0
  expected_peer_static := List.replicate 32 0
  peer_static := List.replicate 32 0
  eph_priv := List.replicate 32 0
  eph_pub := List.replicate 32 0
  peer_eph_pub := List.replicate 32 0
  tx_key := List.replicate 32 0
  rx_key := List.replicate 32 0
  tx_nonce_base := List.replicate 12 0
  rx_nonce_base := List.replicate 12 0
  tx_counter := 0
  rx_counter := 0
  audio_seq := 0
  last_handshake_ms := 0
  last_keepalive_ms := 0
  tx_aead_ready := false
  rx_aead_ready := false
  remote_hangup_requested := false
  enc_state := adpcmZero
  dec_state := adpcmZero

/-- The process-wide state guarded by the mutexes: identity, config,
session and the four byte/sample rings. -/
structure Global where
  identityReady : Bool
  identityPriv : List Nat
  identityPub : List Nat
  config : Config
  session : Session
  micRing : List Int
  spkRing : List Int
  outRing : List Nat
  inRing : List Nat
  deriving Repr, DecidableEq

/-- Ring push with the C overwrite policy: when the ring would exceed its
capacity the oldest elements are dropped. -/
def pushRing {α : Type} (cap : Nat) (ring data : List α) : List α :=
  let r := ring ++ data
  r.drop (r.length - cap)

/-- External primitives that are linked from Monocypher and the OS and are
not part of this repository; each field carries its contract from the
specification. -/
structure Prims where
  /-- Modelled from the spec (missing `crypto_aead_read` of Monocypher):
  ChaCha20-Poly1305 open; arguments are key, 12-byte nonce, ciphertext
  and 16-byte tag; returns the plaintext (of the ciphertext's length) or
  `none` on authentication failure. -/
  aeadOpen : List Nat → List Nat → List Nat → List Nat → Option (List Nat)
  /-- Modelled from the spec (missing `crypto_aead_init_ietf` /
  `crypto_aead_write` of Monocypher): ChaCha20-Poly1305 seal; arguments
  are key, 12-byte nonce and plaintext; returns ciphertext followed by
  the 16-byte tag. -/
  aeadSeal : List Nat → List Nat → List Nat → List Nat
  /-- Modelled from the spec (missing `crypto_x25519` of Monocypher):
  X25519 scalar multiplication of a private scalar with a peer public
  key, giving the 32-byte shared secret. -/
  x25519raw : List Nat → List Nat → List Nat
  /-- Modelled from the spec (missing `crypto_x25519_public_key` of
  Monocypher): X25519 base-point multiplication. -/
  derivePub : List Nat → List Nat

/-- `clamp_x25519`. -/
def clampX25519 (key : List Nat) : List Nat :=
  (key.set 0 (key.getD 0 0 &&& 248)).set 31 ((key.getD 31 0 &&& 127) ||| 64)

/-- `session_reset_locked`: zero the whole session and restore the
identity key pair when an identity is installed.  (The FSK float state
also reset there is outside this model.) -/
def sessionResetLocked (identityReady : Bool) (ipriv ipub : List Nat) : Session :=
  if identityReady then
    { zeroSession with static_priv := ipriv, static_pub := ipub }
  else zeroSession

/-- `queue_frame`: push the 3-byte header (kind, little-endian `uint16_t`
length) and the body onto the outgoing ring. -/
def queueFrameBytes (kind : Nat) (payload : List Nat) (out : List Nat) : List Nat :=
  let len := payload.length % 65536
  pushRing 262144 out ([kind, len % 256, (len >>> 8) % 256] ++ payload.take len)

/-- The HKDF salt `"NADEv1"` from `derive_keys_locked`. -/
def nadeHkdfSalt : List Nat := [78, 65, 68, 69, 118, 49]

/-- The HKDF info `"NADE_SESS"` from `derive_keys_locked`. -/
def nadeHkdfInfo : List Nat := [78, 65, 68, 69, 95, 83, 69, 83, 83]

/-- The three DH outputs of `derive_keys_locked` concatenated in the
role-independent order `ee ‖ eS ‖ sE` (the client places `dh3` before
`dh2`, the server `dh2` before `dh3`); `none` when peer keys are missing
or an `x25519` call yields an all-zero secret. -/
def dhMaterialLocked (xr : List Nat → List Nat → List Nat) (s : Session) :
    Option (List Nat) :=
  if ¬(s.have_peer_static ∧ s.have_peer_ephemeral) then none
  else
    let dh1 := xr s.eph_priv s.peer_eph_pub
    if isAllZero dh1 then none
    else
      let dh2 := xr s.static_priv s.peer_eph_pub
      if isAllZero dh2 then none
      else
        let dh3 := xr s.eph_priv s.peer_static
        if isAllZero dh3 then none
        else some (dh1 ++ (if s.role = 2 then dh3 ++ dh2 else dh2 ++ dh3))

/-- `derive_keys_locked`: build the DH material, run
`HKDF-SHA256(salt="NADEv1", info="NADE_SESS", L=96)` and slice the output
as `client_key ‖ server_key ‖ client_nonce ‖ server_nonce`; the client
takes the client halves for TX, the server mirrors.  On success the
counters, sequence number and codec states are reset and
`handshake_complete`, `tx_aead_ready`, `rx_aead_ready` are set. -/
def deriveKeysLocked (xr : List Nat → List Nat → List Nat) (s : Session) :
    Option Session :=
  match dhMaterialLocked xr s with
  | none => none
  | some material =>
    match hkdfSha256 96 material nadeHkdfSalt nadeHkdfInfo with
    | none => none
    | some derived =>
      let clientKey := derived.take 32
      let serverKey := (derived.drop 32).take 32
      let clientNonce := (derived.drop 64).take 12
      let serverNonce := (derived.drop 76).take 12
      some { s with
        tx_key := if s.role = 2 then clientKey else serverKey
        rx_key := if s.role = 2 then serverKey else clientKey
        tx_nonce_base := if s.role = 2 then clientNonce else serverNonce
        rx_nonce_base := if s.role = 2 then serverNonce else clientNonce
        tx_aead_ready := true
        rx_aead_ready := true
        tx_counter := 0
        rx_counter := 0
        audio_seq := 0
        enc_state := adpcmZero
        dec_state := adpcmZero
        handshake_complete := true }

/-- `build_handshake_payload_locked`: 84-byte payload
`version ‖ role ‖ capabilities ‖ 0 ‖ eph_pub ‖ static_pub ‖
SHA256(static_pub)[0..15]`. -/
def buildHandshakePayloadLocked (cfg : Config) (s : Session) : List Nat :=
  let caps := (if cfg.encrypt then 1 else 0) ||| (if cfg.decrypt then 2 else 0)
  [1, s.role % 256, caps, 0] ++ s.eph_pub ++ s.static_pub ++ (sha256 s.static_pub).take 16

/-- `queue_handshake_locked`: resend-throttled (500 ms) handshake frame. -/
def queueHandshakeLocked (cfg : Config) (now : Nat) (s : Session) (out : List Nat) :
    Session × List Nat :=
  if ¬s.handshake_ready then (s, out)
  else if s.last_handshake_ms ≠ 0 ∧ now - s.last_handshake_ms < 500 then (s, out)
  else
    let payload := buildHandshakePayloadLocked cfg s
    if payload.length = 0 then (s, out)
    else ({ s with last_handshake_ms := now }, queueFrameBytes 1 payload out)

/-- `queue_control_payload_locked`. -/
def queueControlPayloadLocked (type : Nat) (out : List Nat) : List Nat :=
  queueFrameBytes 4 [type] out

/-- `queue_keepalive_locked`. -/
def queueKeepaliveLocked (now : Nat) (s : Session) (out : List Nat) :
    Session × List Nat :=
  ({ s with last_keepalive_ms := now }, queueControlPayloadLocked 0xCC out)

/-- `queue_hangup_locked`: clear the outgoing ring, then queue the
(unencrypted) hangup control frame. -/
def queueHangupLocked (out : List Nat) : List Nat := queueControlPayloadLocked 0xDD []

/-- `handle_audio_plain_locked`: parse the `0xA1` audio header, ADPCM-
decode up to `min(sample_count, 320)` samples and return them for the
speaker ring, updating the per-session decoder state. -/
def handleAudioPlainLocked (s : Session) (data : List Nat) : Session × List Int :=
  if data.length < 8 ∨ data.getD 0 0 ≠ 0xA1 then (s, [])
  else
    let sampleCount := data.getD 4 0 + 256 * data.getD 5 0
    let payloadLen := data.getD 6 0 + 256 * data.getD 7 0
    if payloadLen + 8 > data.length then (s, [])
    else
      let r :=
        adpcmDecodeBlock ((data.drop 8).take payloadLen) (min sampleCount 320) s.dec_state
      ({ s with dec_state := r.2 }, r.1)

/-- `handle_control_plain_locked`: `0xCC` touches the keepalive clock,
`0xDD` latches the remote-hangup flag. -/
def handleControlPlainLocked (now : Nat) (s : Session) (data : List Nat) : Session :=
  if data.length = 0 then s
  else if data.getD 0 0 = 0xCC then { s with last_keepalive_ms := now }
  else if data.getD 0 0 = 0xDD then { s with remote_hangup_requested := true }
  else s

/-- The plaintext-subtype dispatch at the end of
`handle_encrypted_payload_locked`. -/
def dispatchPlainLocked (now : Nat) (s : Session) (plain : List Nat) :
    Session × List Int :=
  if plain.length = 0 then (s, [])
  else if plain.getD 0 0 = 0xA1 then handleAudioPlainLocked s plain
  else (handleControlPlainLocked now s plain, [])

/-- `handle_encrypted_payload_locked`.  For a `Cipher` body longer than 16
bytes with `rx_aead_ready`, compose the nonce from `rx_counter`,
post-increment the counter (`uint64_t`, hence `% 2^64`), and AEAD-open;
failure returns with the counter already advanced and nothing else
changed.  Success marks the handshake acknowledged and dispatches the
plaintext.  Any other body (in particular every body of at most 16
bytes) is copied verbatim (capped at the 2048-byte stack buffer) and
dispatched as plaintext. -/
def handleEncryptedPayloadLocked
    (aeadOpen : List Nat → List Nat → List Nat → List Nat → Option (List Nat))
    (now : Nat) (s : Session) (data : List Nat) (encrypted : Bool) :
    Session × List Int :=
  if ¬s.handshake_complete then (s, [])
  else if encrypted ∧ 16 < data.length ∧ s.rx_aead_ready then
    let cipherLen := data.length - 16
    let nonce := composeNonce s.rx_nonce_base s.rx_counter
    let s1 := { s with rx_counter := (s.rx_counter + 1) % 2 ^ 64 }
    match aeadOpen s.rx_key nonce (data.take cipherLen) (data.drop cipherLen) with
    | none => (s1, [])
    | some plain =>
        dispatchPlainLocked now { s1 with handshake_acknowledged := true }
          (plain.take cipherLen)
  else dispatchPlainLocked now s (data.take 2048)

/-- The peer-key/capability extraction at the top of
`handle_handshake_payload_locked` (performed before the pinning check). -/
def applyHandshakeFieldsLocked (cfg : Config) (s : Session) (payload : List Nat) :
    Session :=
  let caps := payload.getD 2 0
  { s with
    peer_eph_pub := (payload.drop 4).take 32
    peer_static := (payload.drop 36).take 32
    have_peer_ephemeral := true
    have_peer_static := true
    peer_accepts_encrypt := caps &&& 2 != 0
    peer_sends_encrypt := caps &&& 1 != 0
    outbound_encrypted := cfg.encrypt && (caps &&& 2 != 0)
    inbound_encrypted := cfg.decrypt && (caps &&& 1 != 0) }

/-- `handle_handshake_payload_locked`: check length and version, extract
peer keys and capabilities, verify pinning (mismatch aborts without
reply), then derive keys.  (After a successful derivation
`handshake_complete` is already set by `derive_keys_locked`, so the
inner `queue_handshake_locked` branch is dead code; it is kept as in the
source.) -/
def handleHandshakePayloadLocked (xr : List Nat → List Nat → List Nat) (cfg : Config)
    (now : Nat) (s : Session) (payload : List Nat) (out : List Nat) :
    Session × List Nat :=
  if payload.length < 84 then (s, out)
  else if payload.getD 0 0 ≠ 1 then (s, out)
  else
    let s1 := applyHandshakeFieldsLocked cfg s payload
    if s1.expect_peer_static ∧ s1.expected_peer_static ≠ s1.peer_static then (s1, out)
    else
      match deriveKeysLocked xr s1 with
      | none => (s1, out)
      | some s2 =>
          let r :=
            if ¬s2.handshake_complete then queueHandshakeLocked cfg now s2 out
            else (s2, out)
          ({ r.1 with handshake_complete := true }, r.2)

/-- The frame-kind `switch` of `process_incoming_locked`: dispatch one
complete body by kind.  Kinds other than Handshake/Cipher/Plaintext
(including `0x04 Control`) are discarded.  Speaker samples are pushed
into the speaker ring (capacity 65536). -/
def dispatchFrameLocked (pr : Prims) (cfg : Config) (now kind : Nat)
    (body : List Nat) (s : Session) (outR : List Nat) (spkR : List Int) :
    Session × List Nat × List Int :=
  if kind = 1 then
    let r := handleHandshakePayloadLocked pr.x25519raw cfg now s body outR
    (r.1, r.2, spkR)
  else if kind = 2 then
    let r := handleEncryptedPayloadLocked pr.aeadOpen now s body true
    (r.1, outR, pushRing 65536 spkR r.2)
  else if kind = 3 then
    let r := handleEncryptedPayloadLocked pr.aeadOpen now s body false
    (r.1, outR, pushRing 65536 spkR r.2)
  else (s, outR, spkR)

/-- `process_incoming_locked`: repeatedly peek the 3-byte header, wait for
the full body, drop bodies larger than the 2080-byte stack buffer
(`MAX_FRAME_BODY + 32`) without dispatching them, and hand every other
body to the frame-kind dispatch. -/
def processIncomingLocked (pr : Prims) (cfg : Config) (now : Nat) (s : Session)
    (inR outR : List Nat) (spkR : List Int) :
    Session × List Nat × List Nat × List Int :=
  if h3 : inR.length < 3 then (s, inR, outR, spkR)
  else
    let kind := inR.getD 0 0
    let bodyLen := inR.getD 1 0 + 256 * inR.getD 2 0
    if inR.length < bodyLen + 3 then (s, inR, outR, spkR)
    else
      let rest := inR.drop 3
      if bodyLen > 2080 then
        processIncomingLocked pr cfg now s (rest.drop bodyLen) outR spkR
      else
        let d := dispatchFrameLocked pr cfg now kind (rest.take bodyLen) s outR spkR
        processIncomingLocked pr cfg now d.1 (rest.drop bodyLen) d.2.1 d.2.2
termination_by inR.length
decreasing_by
  all_goals simp only [List.length_drop]
  all_goals omega

/-! ## Outbound pipeline and public entry points -/

/-- `ensure_ephemeral_locked`: `entropy = some bytes` models a successful
`secure_random_bytes` call, `none` the entropy failure (which zeroes the
ephemeral private key and returns early). -/
def ensureEphemeralLocked (pr : Prims) (entropy : Option (List Nat)) (s : Session) :
    Session :=
  match entropy with
  | none => { s with eph_priv := List.replicate 32 0 }
  | some e =>
      let priv := clampX25519 (e.take 32)
      { s with eph_priv := priv, eph_pub := pr.derivePub priv,
               have_peer_ephemeral := false }

/-- The loop body of `queue_audio_frames_locked`: drain the mic ring in
320-sample units, ADPCM-encode, build the `0xA1` audio plaintext and
queue it as a `Cipher` frame (AEAD-sealed with the nonce composed from
the post-incremented `tx_counter`) or as a `Plaintext` frame.  The last
component of the result is instrumentation: the `(counter, nonce)` pair
of every sealed frame, in queueing order. -/
def queueAudioFramesGo (sealFn : List Nat → List Nat → List Nat → List Nat)
    (s : Session) (mic : List Int) (out : List Nat)
    (acc : List (Nat × List Nat)) :
    Session × List Int × List Nat × List (Nat × List Nat) :=
  if h : mic.length < 320 then (s, mic, out, acc)
  else
    let pcm := mic.take 320
    let mic' := mic.drop 320
    let adpcm := (adpcmEncodeBlock pcm 200 s.enc_state).1
    let enc' := (adpcmEncodeBlock pcm 200 s.enc_state).2
    if adpcm.length = 0 then ({ s with enc_state := enc' }, mic', out, acc)
    else if 2048 < adpcm.length + 8 then ({ s with enc_state := enc' }, mic', out, acc)
    else
      let seq := s.audio_seq
      let s1 := { s with enc_state := enc', audio_seq := (seq + 1) % 65536 }
      let plain := [0xA1, 1, seq % 256, (seq >>> 8) % 256,
                    pcm.length % 256, (pcm.length >>> 8) % 256,
                    adpcm.length % 256, (adpcm.length >>> 8) % 256] ++ adpcm
      if s1.outbound_encrypted ∧ s1.tx_aead_ready then
        let nonce := composeNonce s1.tx_nonce_base s1.tx_counter
        let cipher := sealFn s1.tx_key nonce plain
        let s2 := { s1 with tx_counter := (s1.tx_counter + 1) % 2 ^ 64 }
        queueAudioFramesGo sealFn s2 mic' (queueFrameBytes 2 cipher out)
          (acc ++ [(s1.tx_counter, nonce)])
      else
        queueAudioFramesGo sealFn s1 mic' (queueFrameBytes 3 plain out) acc
termination_by mic.length
decreasing_by
  all_goals simp only [List.length_drop]
  all_goals omega

/-- `queue_audio_frames_locked` (no-op until the handshake completed). -/
def queueAudioFramesLocked (sealFn : List Nat → List Nat → List Nat → List Nat)
    (s : Session) (mic : List Int) (out : List Nat) :
    Session × List Int × List Nat × List (Nat × List Nat) :=
  if ¬s.handshake_complete then (s, mic, out, [])
  else queueAudioFramesGo sealFn s mic out []

/-- `build_outgoing_locked`: resend the handshake while unacknowledged,
stop before audio until the handshake completed locally, then drain the
mic ring and append a keepalive when due. -/
def buildOutgoingLocked (pr : Prims) (now : Nat) (g : Global) :
    Global × List (Nat × List Nat) :=
  if ¬g.session.active then (g, [])
  else
    let needHs := ¬g.session.handshake_complete ∨ ¬g.session.handshake_acknowledged
    let r1 :=
      if needHs then queueHandshakeLocked g.config now g.session g.outRing
      else (g.session, g.outRing)
    if ¬r1.1.handshake_complete then ({ g with session := r1.1, outRing := r1.2 }, [])
    else
      let r2 := queueAudioFramesLocked pr.aeadSeal r1.1 g.micRing r1.2
      let r3 :=
        if 1000 < now - r2.1.last_keepalive_ms then queueKeepaliveLocked now r2.1 r2.2.2.1
        else (r2.1, r2.2.2.1)
      ({ g with session := r3.1, micRing := r2.2.1, outRing := r3.2 }, r2.2.2.2)

/-- `nade_init`. -/
def nadeInit (pr : Prims) (seed : List Nat) (g : Global) : Global × Int :=
  if seed.length = 0 then (g, -1)
  else
    let priv := clampX25519 (seed.take 32)
    let pub := pr.derivePub priv
    let s := sessionResetLocked true priv pub
    ({ g with identityReady := true, identityPriv := priv, identityPub := pub,
              session := { s with static_priv := priv, static_pub := pub },
              micRing := [], spkRing := [], outRing := [], inRing := [] }, 0)

/-- `start_session_common`: reset the session, install the role and the
optional pinning key, generate the ephemeral pair and arm the handshake. -/
def startSessionCommon (pr : Prims) (entropy : Option (List Nat)) (now : Nat)
    (peerPub : Option (List Nat)) (role : Nat) (g : Global) : Global × Int :=
  if ¬g.identityReady then (g, -1)
  else
    let s0 := sessionResetLocked g.identityReady g.identityPriv g.identityPub
    let s1 := { s0 with active := true, role := role }
    let s2 :=
      match peerPub with
      | some pk =>
          if pk.length = 32 ∧ ¬(isAllZero pk = true) then
            { s1 with expected_peer_static := pk, expect_peer_static := true }
          else { s1 with expect_peer_static := false }
      | none => { s1 with expect_peer_static := false }
    let s3 := ensureEphemeralLocked pr entropy s2
    ({ g with session :=
        { s3 with handshake_ready := true, last_handshake_ms := 0,
                  last_keepalive_ms := now,
                  outbound_encrypted := g.config.encrypt,
                  inbound_encrypted := g.config.decrypt } }, 0)

/-- `nade_start_session_server`. -/
def nadeStartSessionServer (pr : Prims) (entropy : Option (List Nat)) (now : Nat)
    (peerPub : Option (List Nat)) (g : Global) : Global × Int :=
  startSessionCommon pr entropy now peerPub 1 g

/-- `nade_start_session_client`. -/
def nadeStartSessionClient (pr : Prims) (entropy : Option (List Nat)) (now : Nat)
    (peerPub : Option (List Nat)) (g : Global) : Global × Int :=
  startSessionCommon pr entropy now peerPub 2 g

/-- `nade_stop_session`: reset the session (identity preserved) and clear
all four rings. -/
def nadeStopSession (g : Global) : Global × Int :=
  ({ g with session := sessionResetLocked g.identityReady g.identityPriv g.identityPub,
            micRing := [], spkRing := [], outRing := [], inRing := [] }, 0)

/-- `nade_feed_mic_frame`. -/
def nadeFeedMicFrame (g : Global) (pcm : List Int) : Global × Int :=
  if pcm.length = 0 then (g, -1)
  else if ¬g.session.active then (g, -1)
  else ({ g with micRing := pushRing 65536 g.micRing pcm }, 0)

/-- `nade_generate_outgoing_frame`: run the outbound pipeline, then pop up
to `maxLen` bytes from the outgoing ring.  Returns the new state, the
bytes handed to the caller, and the instrumented list of sealed
`(counter, nonce)` pairs. -/
def nadeGenerateOutgoingFrame (pr : Prims) (now maxLen : Nat) (g : Global) :
    Global × List Nat × List (Nat × List Nat) :=
  if maxLen = 0 then (g, [], [])
  else
    let r := buildOutgoingLocked pr now g
    (({ r.1 with outRing := r.1.outRing.drop maxLen }), r.1.outRing.take maxLen, r.2)

/-- `nade_handle_incoming_frame`: append the bytes to the incoming ring
(capacity 262144, overwrite policy) and run the frame parser. -/
def nadeHandleIncomingFrame (pr : Prims) (now : Nat) (data : List Nat) (g : Global) :
    Global × Int :=
  if data.length = 0 then (g, -1)
  else if ¬g.session.active then (g, -1)
  else
    let inR0 := pushRing 262144 g.inRing data
    let r :=
      processIncomingLocked pr g.config now g.session inR0 g.outRing g.spkRing
    ({ g with session := r.1, inRing := r.2.1, outRing := r.2.2.1,
              spkRing := r.2.2.2 }, 0)

/-- `nade_pull_speaker_frame`. -/
def nadePullSpeakerFrame (maxSamples : Nat) (g : Global) : Global × List Int :=
  if maxSamples = 0 then (g, [])
  else ({ g with spkRing := g.spkRing.drop maxSamples }, g.spkRing.take maxSamples)

/-- `nade_send_hangup_signal`. -/
def nadeSendHangupSignal (g : Global) : Global × Int :=
  if g.session.active then ({ g with outRing := queueHangupLocked g.outRing }, 0)
  else (g, -1)

/-- `nade_consume_remote_hangup`: read-and-clear. -/
def nadeConsumeRemoteHangup (g : Global) : Global × Bool :=
  ({ g with session := { g.session with remote_hangup_requested := false } },
   g.session.remote_hangup_requested)

/-! ## Interleavings of `nade_feed_mic_frame` / `nade_generate_outgoing_frame`

Each public call holds `g_session_mutex` for its whole critical section,
so an arbitrary interleaving of concurrent callers is a sequence of
atomic steps.  `runMicNet` executes such a sequence and concatenates the
instrumented `(tx_counter, nonce)` pairs of all AEAD-sealed frames. -/

/-- One atomic call in an interleaving of the two pipeline entry points. -/
inductive MicNetOp where
  | feedMic (pcm : List Int)
  | genOut (now maxLen : Nat)
  deriving Repr

/-- Execute one call. -/
def stepMicNet (pr : Prims) (g : Global) : MicNetOp → Global × List (Nat × List Nat)
  | .feedMic pcm => ((nadeFeedMicFrame g pcm).1, [])
  | .genOut now maxLen =>
      let r := nadeGenerateOutgoingFrame pr now maxLen g
      (r.1, r.2.2)

/-- Execute a whole interleaving, collecting sealed `(counter, nonce)`
pairs in order. -/
def runMicNet (pr : Prims) (g : Global) : List MicNetOp → Global × List (Nat × List Nat)
  | [] => (g, [])
  | op :: ops =>
      let r1 := stepMicNet pr g op
      let r2 := runMicNet pr r1.1 ops
      (r2.1, r1.2 ++ r2.2)

/-- The `(counter, nonce)` pairs of `n` consecutively sealed frames
starting at counter `t` (wrapping at `2^64` as the `uint64_t` does). -/
def nonceSeq (base : List Nat) (t n : Nat) : List (Nat × List Nat) :=
  (List.range n).map fun i =>
    ((t + i) % 2 ^ 64, composeNonce base ((t + i) % 2 ^ 64))

/-! ## Shared fixtures for concrete witnesses -/

/-- Concrete primitives for witnesses: an AEAD that rejects everything, a
seal that appends a 16-byte tag, a symmetric toy DH. -/
def fixturePrims : Prims where
  aeadOpen := fun _ _ _ _ => none
  aeadSeal := fun _ _ p => p ++ List.replicate 16 0
  x25519raw := fun a b => List.replicate 31 1 ++ [(a.getD 0 0 + 1) * b.getD 0 0 % 256]
  derivePub := fun a => a.map (fun x => (x + 1) % 256)

/-- A post-handshake session fixture. -/
def fixtureSession : Session :=
  { zeroSession with
      active := true
      handshake_complete := true
      handshake_acknowledged := true
      outbound_encrypted := true
      tx_aead_ready := true
      rx_aead_ready := true
      tx_key := List.replicate 32 7
      tx_nonce_base := List.replicate 12 0
      rx_key := List.replicate 32 9
      rx_nonce_base := List.replicate 12 0 }

/-- A global-state fixture around `fixtureSession`. -/
def fixtureGlobal : Global :=
  { identityReady := true
    identityPriv := List.replicate 32 2
    identityPub := List.replicate 32 3
    config := ⟨true, true⟩
    session := fixtureSession
    micRing := []
    spkRing := []
    outRing := []
    inRing := [] }

/-! ## Claim C2 -/

set_option maxRecDepth 100000 in
/-- C2: `rs_decode` cannot even accept an unmodified `rs_encode` output.
For the specification's own S4 data `"Hello, NADE!"` (12 bytes, zero
errors applied — an error pattern of Hamming weight 0 ≤ 16), the decoder
returns `-1` (`none`) instead of reporting 0 errors with the codeword
intact: `compute_syndromes` treats the first byte as the lowest-degree
coefficient while `rs_encode` emits the first byte as the highest-degree
coefficient, so every encoder output fails the syndrome check. -/
theorem C2_rs_decode_rejects_clean_codeword :
    rsDecode (rsEncode [0x48, 0x65, 0x6c, 0x6c, 0x6f, 0x2c, 0x20, 0x4e,
                        0x41, 0x44, 0x45, 0x21]) = none := by
  decide

/-! ## Claim C7 -/

/-- C7 (counterexample): the claim quantifies over *every* requested
length `L ≤ 8160`, but `hkdf_sha256` rejects `L = 0` outright. -/
theorem C7_counterexample_hkdf_len_zero :
    hkdfSha256 0 [1] [2] [3] = none := by decide

/-- C7 (amended): for every ikm, salt, info and every requested length
`1 ≤ L ≤ 8160`, `hkdf_sha256` succeeds with exactly `L` bytes of output,
and the output is a deterministic function of `(ikm, salt, info, L)`. -/
theorem C7_hkdf_length_and_deterministic (ikm salt info : List Nat) (L : Nat)
    (h1 : 1 ≤ L) (h2 : L ≤ 8160) :
    (∃ okm, hkdfSha256 L ikm salt info = some okm ∧ okm.length = L) ∧
    (∀ ikm2 salt2 info2 L2, ikm2 = ikm → salt2 = salt → info2 = info → L2 = L →
      hkdfSha256 L2 ikm2 salt2 info2 = hkdfSha256 L ikm salt info) := by
  refine ⟨hkdfSha256_length_some h1 h2 ikm salt info, ?_⟩
  intro ikm2 salt2 info2 L2 e1 e2 e3 e4
  subst e1; subst e2; subst e3; subst e4
  rfl

/-- C7 witness: the amended theorem applied at `L = 42` with concrete
inputs. -/
theorem C7_hkdf_length_and_deterministic_witness :
    (1 ≤ 42 ∧ 42 ≤ 8160) ∧
    ((∃ okm, hkdfSha256 42 [5] [6] [7] = some okm ∧ okm.length = 42) ∧
     (∀ ikm2 salt2 info2 L2, ikm2 = [5] → salt2 = [6] → info2 = [7] → L2 = 42 →
       hkdfSha256 L2 ikm2 salt2 info2 = hkdfSha256 42 [5] [6] [7])) :=
  ⟨⟨by decide, by decide⟩,
   C7_hkdf_length_and_deterministic [5] [6] [7] 42 (by decide) (by decide)⟩

/-! ## Claim C9 -/

/-- C9: `session_reset_locked` (and hence `nade_stop_session`) zeroes all
mutable session state — keys, nonce bases, counters, sequence number and
every flag — but restores `static_priv`/`static_pub` from the installed
identity whenever an identity has been initialised, and
`nade_stop_session` leaves the identity globals untouched (identity
survives every reset). -/
theorem C9_session_reset_preserves_identity (g : Global)
    (h : g.identityReady = true) :
    sessionResetLocked g.identityReady g.identityPriv g.identityPub =
      { zeroSession with static_priv := g.identityPriv, static_pub := g.identityPub } ∧
    (nadeStopSession g).1.session =
      { zeroSession with static_priv := g.identityPriv, static_pub := g.identityPub } ∧
    (nadeStopSession g).1.session.static_priv = g.identityPriv ∧
    (nadeStopSession g).1.session.static_pub = g.identityPub ∧
    (nadeStopSession g).1.identityReady = g.identityReady ∧
    (nadeStopSession g).1.identityPriv = g.identityPriv ∧
    (nadeStopSession g).1.identityPub = g.identityPub ∧
    zeroSession.tx_key = List.replicate 32 0 ∧
    zeroSession.rx_key = List.replicate 32 0 ∧
    zeroSession.tx_counter = 0 ∧ zeroSession.rx_counter = 0 ∧
    zeroSession.active = false ∧ zeroSession.handshake_complete = false := by
  refine ⟨?_, ?_, ?_, ?_, rfl, rfl, rfl, rfl, rfl, rfl, rfl, rfl, rfl⟩ <;>
    simp [sessionResetLocked, nadeStopSession, h]

/-- C9 witness: the theorem applied to the global fixture. -/
theorem C9_session_reset_preserves_identity_witness :
    fixtureGlobal.identityReady = true ∧
    (sessionResetLocked fixtureGlobal.identityReady fixtureGlobal.identityPriv
        fixtureGlobal.identityPub =
      { zeroSession with static_priv := fixtureGlobal.identityPriv,
                         static_pub := fixtureGlobal.identityPub } ∧
     (nadeStopSession fixtureGlobal).1.session =
      { zeroSession with static_priv := fixtureGlobal.identityPriv,
                         static_pub := fixtureGlobal.identityPub } ∧
     (nadeStopSession fixtureGlobal).1.session.static_priv = fixtureGlobal.identityPriv ∧
     (nadeStopSession fixtureGlobal).1.session.static_pub = fixtureGlobal.identityPub ∧
     (nadeStopSession fixtureGlobal).1.identityReady = fixtureGlobal.identityReady ∧
     (nadeStopSession fixtureGlobal).1.identityPriv = fixtureGlobal.identityPriv ∧
     (nadeStopSession fixtureGlobal).1.identityPub = fixtureGlobal.identityPub ∧
     zeroSession.tx_key = List.replicate 32 0 ∧
     zeroSession.rx_key = List.replicate 32 0 ∧
     zeroSession.tx_counter = 0 ∧ zeroSession.rx_counter = 0 ∧
     zeroSession.active = false ∧ zeroSession.handshake_complete = false) :=
  ⟨rfl, C9_session_reset_preserves_identity fixtureGlobal rfl⟩

/-! ## Claim C6 -/

/-- The plaintext dispatch never touches `rx_counter`. -/
theorem dispatchPlain_rx_counter (now : Nat) (s : Session) (plain : List Nat) :
    (dispatchPlainLocked now s plain).1.rx_counter = s.rx_counter := by
  unfold dispatchPlainLocked handleAudioPlainLocked handleControlPlainLocked
  repeat' first
    | rfl
    | split
    | dsimp only

/-- C6: after the handshake is complete, a `Cipher` body of at most 16
bytes is never AEAD-authenticated: `handle_encrypted_payload_locked`
treats it exactly as a `Plaintext` body (copied verbatim and dispatched
by subtype), `rx_counter` is not advanced, and in particular the single
body byte `0xDD` sets `remote_hangup_requested` without any
authentication. -/
theorem C6_short_cipher_skips_aead
    (aeadOpen : List Nat → List Nat → List Nat → List Nat → Option (List Nat))
    (now : Nat) (s : Session) (data : List Nat)
    (hc : s.handshake_complete = true) (hlen : data.length ≤ 16) :
    handleEncryptedPayloadLocked aeadOpen now s data true =
      handleEncryptedPayloadLocked aeadOpen now s data false ∧
    (handleEncryptedPayloadLocked aeadOpen now s data true).1.rx_counter =
      s.rx_counter ∧
    (handleEncryptedPayloadLocked aeadOpen now s [0xDD] true).1.remote_hangup_requested
      = true := by
  have hnc : ¬(¬s.handshake_complete = true) := by simp [hc]
  have hclose : ∀ d : List Nat, d.length ≤ 16 →
      handleEncryptedPayloadLocked aeadOpen now s d true =
        dispatchPlainLocked now s (d.take 2048) := by
    intro d hd
    rw [handleEncryptedPayloadLocked, if_neg hnc, if_neg]
    intro hh
    have := hh.2.1
    omega
  have hplain : handleEncryptedPayloadLocked aeadOpen now s data false =
      dispatchPlainLocked now s (data.take 2048) := by
    rw [handleEncryptedPayloadLocked, if_neg hnc, if_neg]
    intro hh
    exact Bool.false_ne_true hh.1
  refine ⟨?_, ?_, ?_⟩
  · rw [hclose data hlen, hplain]
  · rw [hclose data hlen]
    exact dispatchPlain_rx_counter now s (data.take 2048)
  · rw [hclose [0xDD] (by decide)]
    simp [dispatchPlainLocked, handleControlPlainLocked]

/-- C6 witness: the theorem applied to the session fixture and a 10-byte
body. -/
theorem C6_short_cipher_skips_aead_witness :
    (fixtureSession.handshake_complete = true ∧
     (List.replicate 10 7).length ≤ 16) ∧
    (handleEncryptedPayloadLocked fixturePrims.aeadOpen 5 fixtureSession
        (List.replicate 10 7) true =
      handleEncryptedPayloadLocked fixturePrims.aeadOpen 5 fixtureSession
        (List.replicate 10 7) false ∧
     (handleEncryptedPayloadLocked fixturePrims.aeadOpen 5 fixtureSession
        (List.replicate 10 7) true).1.rx_counter = fixtureSession.rx_counter ∧
     (handleEncryptedPayloadLocked fixturePrims.aeadOpen 5 fixtureSession
        [0xDD] true).1.remote_hangup_requested = true) :=
  ⟨⟨rfl, by decide⟩,
   C6_short_cipher_skips_aead fixturePrims.aeadOpen 5 fixtureSession
     (List.replicate 10 7) rfl (by decide)⟩

/-! ## Claim C5 -/

/-- One complete frame at the head of the incoming ring: the parser drops
the body without dispatching when it exceeds 2080 bytes
(`sizeof(body) = MAX_FRAME_BODY + 32`), and otherwise hands it to the
frame-kind dispatch; in both cases the loop continues on the remaining
ring contents. -/
theorem processIncoming_step (pr : Prims) (cfg : Config) (now : Nat) (s : Session)
    (outR : List Nat) (spkR : List Int) (kind : Nat) (body rest : List Nat)
    (hmax : body.length < 65536) :
    processIncomingLocked pr cfg now s
      (kind :: body.length % 256 :: (body.length >>> 8) % 256 :: (body ++ rest))
      outR spkR =
    if 2080 < body.length then processIncomingLocked pr cfg now s rest outR spkR
    else
      processIncomingLocked pr cfg now
        (dispatchFrameLocked pr cfg now kind body s outR spkR).1 rest
        (dispatchFrameLocked pr cfg now kind body s outR spkR).2.1
        (dispatchFrameLocked pr cfg now kind body s outR spkR).2.2 := by
  have hshift : body.length >>> 8 = body.length / 256 := by
    rw [Nat.shiftRight_eq_div_pow]
  rw [processIncomingLocked]
  rw [dif_neg (by simp)]
  simp only [List.getD_cons_zero, List.getD_cons_succ, List.length_cons,
    List.drop_succ_cons, List.drop_zero]
  have hlenre : body.length % 256 + 256 * (body.length >>> 8 % 256) = body.length := by
    rw [hshift]
    omega
  rw [hlenre]
  rw [if_neg (by simp only [List.length_append]; omega)]
  rw [List.take_left, List.drop_left]

/-- C5 (counterexample): a `Plaintext` frame with body length 2049 — above
the claimed 2048-byte limit — is *not* dropped: it reaches the kind
dispatch and changes session state (its leading `0xDD` byte latches
`remote_hangup_requested`, which was clear before). -/
theorem C5_counterexample_2049_byte_body_dispatched :
    (processIncomingLocked fixturePrims ⟨true, true⟩ 0 fixtureSession
        (3 :: 1 :: 8 :: ((0xDD :: List.replicate 2048 0) ++ []))
        [] []).1.remote_hangup_requested = true ∧
    fixtureSession.remote_hangup_requested = false := by
  have hlen : (0xDD :: List.replicate 2048 (0 : Nat)).length = 2049 := by
    simp only [List.length_cons, List.length_replicate]
  have hstep := processIncoming_step fixturePrims ⟨true, true⟩ 0 fixtureSession
    [] [] 3 (0xDD :: List.replicate 2048 0) [] (by rw [hlen]; omega)
  rw [hlen] at hstep
  rw [(by decide : (2049 : Nat) % 256 = 1),
      (by decide : ((2049 : Nat) >>> 8) % 256 = 8),
      if_neg (by decide)] at hstep
  refine ⟨?_, rfl⟩
  rw [hstep]
  rw [processIncomingLocked, dif_pos (by decide)]
  have hdisp :
      (dispatchFrameLocked fixturePrims ⟨true, true⟩ 0 3
          (0xDD :: List.replicate 2048 0) fixtureSession []
          []).1.remote_hangup_requested = true := by
    rw [dispatchFrameLocked, if_neg (by decide), if_neg (by decide),
      if_pos rfl]
    rw [handleEncryptedPayloadLocked, if_neg (by decide), if_neg ?hside]
    case hside =>
      intro hh
      exact Bool.false_ne_true hh.1
    have htake : (0xDD :: List.replicate 2048 (0 : Nat)).take 2048 =
        0xDD :: List.replicate 2047 0 := by
      rw [(by norm_num : (2048 : Nat) = 2047 + 1), List.take_succ_cons,
        List.take_replicate]
      norm_num
    rw [htake]
    rw [dispatchPlainLocked,
      if_neg (by simp only [List.length_cons, List.length_replicate]; omega),
      if_neg (by decide)]
    rw [handleControlPlainLocked,
      if_neg (by simp only [List.length_cons, List.length_replicate]; omega),
      if_neg (by decide), if_pos (by decide)]
  have hproj : ∀ (a : Session) (b c : List Nat) (d : List Int),
      ((a, b, c, d) : Session × List Nat × List Nat × List Int).1 = a :=
    fun _ _ _ _ => rfl
  rw [hproj]
  exact hdisp

/-- C5 (amended): the drop threshold is the 2080-byte body buffer
(`MAX_FRAME_BODY + 32`), not `MAX_FRAME_BODY`: every incoming frame with
body length field above 2080 is dropped from the incoming ring without
being dispatched and without any change to session, outgoing-ring or
speaker state, and exactly the frames with body length at most 2080
reach the kind dispatch. -/
theorem C5_oversize_frames_dropped (pr : Prims) (cfg : Config) (now : Nat)
    (s : Session) (outR : List Nat) (spkR : List Int) (kind : Nat)
    (body rest : List Nat) (hmax : body.length < 65536) :
    (2080 < body.length →
      processIncomingLocked pr cfg now s
        (kind :: body.length % 256 :: (body.length >>> 8) % 256 :: (body ++ rest))
        outR spkR =
      processIncomingLocked pr cfg now s rest outR spkR) ∧
    (body.length ≤ 2080 →
      processIncomingLocked pr cfg now s
        (kind :: body.length % 256 :: (body.length >>> 8) % 256 :: (body ++ rest))
        outR spkR =
      processIncomingLocked pr cfg now
        (dispatchFrameLocked pr cfg now kind body s outR spkR).1 rest
        (dispatchFrameLocked pr cfg now kind body s outR spkR).2.1
        (dispatchFrameLocked pr cfg now kind body s outR spkR).2.2) := by
  constructor
  · intro hb
    rw [processIncoming_step pr cfg now s outR spkR kind body rest hmax, if_pos hb]
  · intro hb
    rw [processIncoming_step pr cfg now s outR spkR kind body rest hmax,
      if_neg (by omega)]

set_option maxRecDepth 8000 in
/-- C5 witness: a 2081-byte body is dropped with session, rings and
speaker untouched. -/
theorem C5_oversize_frames_dropped_witness :
    processIncomingLocked fixturePrims ⟨true, true⟩ 0 fixtureSession
      (3 :: (List.replicate 2081 0).length % 256 ::
        ((List.replicate 2081 0).length >>> 8) % 256 ::
        (List.replicate 2081 0 ++ [7, 7])) [] [] =
    processIncomingLocked fixturePrims ⟨true, true⟩ 0 fixtureSession [7, 7] [] [] :=
  (C5_oversize_frames_dropped fixturePrims ⟨true, true⟩ 0 fixtureSession [] [] 3
    (List.replicate 2081 0) [7, 7] (by simp)).1 (by simp)

/-! ## Claim C3 -/

/-- Pushing onto an in-capacity ring keeps all elements. -/
theorem pushRing_small {α : Type} (cap : Nat) (ring data : List α)
    (h : ring.length + data.length ≤ cap) :
    pushRing cap ring data = ring ++ data := by
  have h0 : (ring ++ data).length - cap = 0 := by
    simp only [List.length_append]
    omega
  simp only [pushRing, h0, List.drop_zero]

/-- C3: when `handle_incoming` processes a `Cipher` frame with a body
longer than 16 bytes in a session with `handshake_complete` and
`rx_aead_ready`, and the AEAD open fails, then `rx_counter` is advanced
by exactly one (no rollback), nothing reaches the speaker ring, no other
session or ring state changes, and the call still returns success. -/
theorem C3_aead_reject_advances_counter_only (pr : Prims) (now : Nat) (g : Global)
    (body : List Nat)
    (hactive : g.session.active = true)
    (hc : g.session.handshake_complete = true)
    (hr : g.session.rx_aead_ready = true)
    (hin : g.inRing = [])
    (hspk : g.spkRing.length ≤ 65536)
    (hlen : 16 < body.length) (hlen2 : body.length ≤ 2080)
    (hopen : pr.aeadOpen g.session.rx_key
        (composeNonce g.session.rx_nonce_base g.session.rx_counter)
        (body.take (body.length - 16)) (body.drop (body.length - 16)) = none) :
    nadeHandleIncomingFrame pr now
        (2 :: body.length % 256 :: (body.length >>> 8) % 256 :: body) g =
      ({ g with
          session := { g.session with
            rx_counter := (g.session.rx_counter + 1) % 2 ^ 64 },
          inRing := [] }, 0) := by
  rw [nadeHandleIncomingFrame]
  rw [if_neg (by simp)]
  rw [if_neg (by simp [hactive])]
  rw [hin, pushRing_small 262144 [] _ (by simp; omega), List.nil_append]
  have hbody : (2 : Nat) :: body.length % 256 :: (body.length >>> 8) % 256 :: body =
      2 :: body.length % 256 :: (body.length >>> 8) % 256 :: (body ++ []) := by
    rw [List.append_nil]
  dsimp only
  rw [hbody,
    processIncoming_step pr g.config now g.session g.outRing g.spkRing 2 body []
      (by omega)]
  rw [if_neg (by omega)]
  have hdisp : dispatchFrameLocked pr g.config now 2 body g.session g.outRing g.spkRing
      = ({ g.session with rx_counter := (g.session.rx_counter + 1) % 2 ^ 64 },
         g.outRing, g.spkRing) := by
    rw [dispatchFrameLocked, if_neg (by decide), if_pos rfl]
    rw [handleEncryptedPayloadLocked, if_neg (by simp [hc]),
      if_pos ⟨rfl, hlen, hr⟩]
    dsimp only
    rw [hopen]
    rw [pushRing_small 65536 g.spkRing [] (by simpa using hspk), List.append_nil]
  rw [hdisp, processIncomingLocked, dif_pos (by decide)]

/-- C3 witness: a rejected 17-byte `Cipher` body against the fixture
session advances `rx_counter` to 1 and changes nothing else, and the
call reports success. -/
theorem C3_aead_reject_advances_counter_only_witness :
    nadeHandleIncomingFrame fixturePrims 9
        (2 :: (List.replicate 17 1).length % 256 ::
          ((List.replicate 17 1).length >>> 8) % 256 :: List.replicate 17 1)
        fixtureGlobal =
      ({ fixtureGlobal with
          session := { fixtureGlobal.session with
            rx_counter := (fixtureGlobal.session.rx_counter + 1) % 2 ^ 64 },
          inRing := [] }, 0) :=
  C3_aead_reject_advances_counter_only fixturePrims 9 fixtureGlobal
    (List.replicate 17 1) rfl rfl rfl rfl (by decide) (by decide) (by decide) rfl

/-! ## Claim C4 -/

/-- Structure of `build_handshake_payload_locked`: version byte, length,
and the two public keys at offsets 4 and 36. -/
theorem buildPayload_fields (cfg : Config) (s : Session)
    (hep : s.eph_pub.length = 32) (hsp : s.static_pub.length = 32) :
    (buildHandshakePayloadLocked cfg s).getD 0 0 = 1 ∧
    (buildHandshakePayloadLocked cfg s).length = 84 ∧
    ((buildHandshakePayloadLocked cfg s).drop 4).take 32 = s.eph_pub ∧
    ((buildHandshakePayloadLocked cfg s).drop 36).take 32 = s.static_pub := by
  have hdrop4 : (buildHandshakePayloadLocked cfg s).drop 4 =
      s.eph_pub ++ (s.static_pub ++ (sha256 s.static_pub).take 16) := by
    rw [buildHandshakePayloadLocked]
    simp only [List.append_assoc, List.cons_append, List.nil_append,
      List.drop_succ_cons, List.drop_zero]
  refine ⟨by rw [buildHandshakePayloadLocked]; rfl, ?_, ?_, ?_⟩
  · rw [buildHandshakePayloadLocked]
    simp only [List.length_append, List.length_cons, List.length_take,
      sha256_length, hep, hsp]
    norm_num
  · rw [hdrop4, List.take_left' hep]
  · have h36 : (buildHandshakePayloadLocked cfg s).drop 36 =
        s.static_pub ++ (sha256 s.static_pub).take 16 := by
      have h4 : (36 : Nat) = 4 + 32 := by norm_num
      rw [h4, ← List.drop_drop, hdrop4, List.drop_left' hep]
    rw [h36, List.take_left' hsp]

/-- `dh_material` of `derive_keys_locked` when the peer keys are present
and all three DH calls succeed. -/
theorem dhMaterial_spec (xr : List Nat → List Nat → List Nat) (s : Session)
    (hhp : s.have_peer_static = true) (hhe : s.have_peer_ephemeral = true)
    (h1 : isAllZero (xr s.eph_priv s.peer_eph_pub) = false)
    (h2 : isAllZero (xr s.static_priv s.peer_eph_pub) = false)
    (h3 : isAllZero (xr s.eph_priv s.peer_static) = false) :
    dhMaterialLocked xr s = some (xr s.eph_priv s.peer_eph_pub ++
      (if s.role = 2 then xr s.eph_priv s.peer_static ++ xr s.static_priv s.peer_eph_pub
       else xr s.static_priv s.peer_eph_pub ++ xr s.eph_priv s.peer_static)) := by
  rw [dhMaterialLocked, if_neg (by simp [hhp, hhe]), if_neg (by simp [h1]),
    if_neg (by simp [h2]), if_neg (by simp [h3])]

/-- `derive_keys_locked`, given the material and the HKDF output. -/
theorem deriveKeys_spec (xr : List Nat → List Nat → List Nat) (s : Session)
    (m derived : List Nat) (hm : dhMaterialLocked xr s = some m)
    (hk : hkdfSha256 96 m nadeHkdfSalt nadeHkdfInfo = some derived) :
    deriveKeysLocked xr s = some { s with
      tx_key := if s.role = 2 then derived.take 32 else (derived.drop 32).take 32
      rx_key := if s.role = 2 then (derived.drop 32).take 32 else derived.take 32
      tx_nonce_base := if s.role = 2 then (derived.drop 64).take 12
                       else (derived.drop 76).take 12
      rx_nonce_base := if s.role = 2 then (derived.drop 76).take 12
                       else (derived.drop 64).take 12
      tx_aead_ready := true
      rx_aead_ready := true
      tx_counter := 0
      rx_counter := 0
      audio_seq := 0
      enc_state := adpcmZero
      dec_state := adpcmZero
      handshake_complete := true } := by
  rw [deriveKeysLocked, hm]
  dsimp only
  rw [hk]

/-- `handle_handshake_payload_locked` on a well-formed payload that passes
pinning and derives keys. -/
theorem handleHandshake_spec (xr : List Nat → List Nat → List Nat) (cfg : Config)
    (now : Nat) (s : Session) (payload out : List Nat) (s2 : Session)
    (hlen : ¬payload.length < 84) (hv : payload.getD 0 0 = 1)
    (hpin : ¬((applyHandshakeFieldsLocked cfg s payload).expect_peer_static ∧
      (applyHandshakeFieldsLocked cfg s payload).expected_peer_static ≠
        (applyHandshakeFieldsLocked cfg s payload).peer_static))
    (hd : deriveKeysLocked xr (applyHandshakeFieldsLocked cfg s payload) = some s2)
    (hs2 : s2.handshake_complete = true) :
    handleHandshakePayloadLocked xr cfg now s payload out =
      ({ s2 with handshake_complete := true }, out) := by
  rw [handleHandshakePayloadLocked, if_neg hlen,
    if_neg (by rw [hv]; exact fun hh => absurd rfl hh), if_neg hpin, hd]
  dsimp only
  rw [if_neg (by simp [hs2])]

/-- C4: a client session and a server session that each process the
other's handshake payload (pinning absent or matching on both sides, all
DH outcomes nonzero) build the identical 96-byte DH material string and
HKDF output, and the client's `(tx_key, tx_nonce_base)` equals the
server's `(rx_key, rx_nonce_base)` and vice versa.  The X25519 scalar
multiplication `xr` and base-point multiplication `pubF` are the
Monocypher primitives, assumed to produce 32-byte outputs and to satisfy
the Diffie-Hellman symmetry `xr a (pubF b) = xr b (pubF a)`. -/
theorem C4_handshake_symmetry
    (xr : List Nat → List Nat → List Nat) (pubF : List Nat → List Nat)
    (cfgc cfgs : Config) (nowc nows : Nat) (sc ss : Session)
    (ec es Sc Ss outc outs : List Nat)
    (hdhlen : ∀ a b, (xr a b).length = 32)
    (hpublen : ∀ a, (pubF a).length = 32)
    (hsym : ∀ a b, xr a (pubF b) = xr b (pubF a))
    (hcrole : sc.role = 2) (hsrole : ss.role = 1)
    (hce : sc.eph_priv = ec) (hcep : sc.eph_pub = pubF ec)
    (hcs : sc.static_priv = Sc) (hcsp : sc.static_pub = pubF Sc)
    (hse : ss.eph_priv = es) (hsep : ss.eph_pub = pubF es)
    (hss : ss.static_priv = Ss) (hssp : ss.static_pub = pubF Ss)
    (hcpin : sc.expect_peer_static = false ∨ sc.expected_peer_static = pubF Ss)
    (hspin : ss.expect_peer_static = false ∨ ss.expected_peer_static = pubF Sc)
    (hz1 : isAllZero (xr ec (pubF es)) = false)
    (hz2 : isAllZero (xr Sc (pubF es)) = false)
    (hz3 : isAllZero (xr ec (pubF Ss)) = false) :
    ∃ m okm,
      dhMaterialLocked xr (applyHandshakeFieldsLocked cfgc sc
          (buildHandshakePayloadLocked cfgs ss)) = some m ∧
      dhMaterialLocked xr (applyHandshakeFieldsLocked cfgs ss
          (buildHandshakePayloadLocked cfgc sc)) = some m ∧
      m.length = 96 ∧
      hkdfSha256 96 m nadeHkdfSalt nadeHkdfInfo = some okm ∧ okm.length = 96 ∧
      (handleHandshakePayloadLocked xr cfgc nowc sc
          (buildHandshakePayloadLocked cfgs ss) outc).1.handshake_complete = true ∧
      (handleHandshakePayloadLocked xr cfgs nows ss
          (buildHandshakePayloadLocked cfgc sc) outs).1.handshake_complete = true ∧
      (handleHandshakePayloadLocked xr cfgc nowc sc
          (buildHandshakePayloadLocked cfgs ss) outc).1.tx_key =
        (handleHandshakePayloadLocked xr cfgs nows ss
          (buildHandshakePayloadLocked cfgc sc) outs).1.rx_key ∧
      (handleHandshakePayloadLocked xr cfgc nowc sc
          (buildHandshakePayloadLocked cfgs ss) outc).1.rx_key =
        (handleHandshakePayloadLocked xr cfgs nows ss
          (buildHandshakePayloadLocked cfgc sc) outs).1.tx_key ∧
      (handleHandshakePayloadLocked xr cfgc nowc sc
          (buildHandshakePayloadLocked cfgs ss) outc).1.tx_nonce_base =
        (handleHandshakePayloadLocked xr cfgs nows ss
          (buildHandshakePayloadLocked cfgc sc) outs).1.rx_nonce_base ∧
      (handleHandshakePayloadLocked xr cfgc nowc sc
          (buildHandshakePayloadLocked cfgs ss) outc).1.rx_nonce_base =
        (handleHandshakePayloadLocked xr cfgs nows ss
          (buildHandshakePayloadLocked cfgc sc) outs).1.tx_nonce_base := by
  have hbs := buildPayload_fields cfgs ss (by rw [hsep]; exact hpublen es)
    (by rw [hssp]; exact hpublen Ss)
  have hbc := buildPayload_fields cfgc sc (by rw [hcep]; exact hpublen ec)
    (by rw [hcsp]; exact hpublen Sc)
  have hc1 : applyHandshakeFieldsLocked cfgc sc (buildHandshakePayloadLocked cfgs ss) =
      { sc with
        peer_eph_pub := pubF es
        peer_static := pubF Ss
        have_peer_ephemeral := true
        have_peer_static := true
        peer_accepts_encrypt :=
          (buildHandshakePayloadLocked cfgs ss).getD 2 0 &&& 2 != 0
        peer_sends_encrypt :=
          (buildHandshakePayloadLocked cfgs ss).getD 2 0 &&& 1 != 0
        outbound_encrypted :=
          cfgc.encrypt && ((buildHandshakePayloadLocked cfgs ss).getD 2 0 &&& 2 != 0)
        inbound_encrypted :=
          cfgc.decrypt && ((buildHandshakePayloadLocked cfgs ss).getD 2 0 &&& 1 != 0) } := by
    rw [applyHandshakeFieldsLocked, hbs.2.2.1, hbs.2.2.2, hsep, hssp]
  have hs1 : applyHandshakeFieldsLocked cfgs ss (buildHandshakePayloadLocked cfgc sc) =
      { ss with
        peer_eph_pub := pubF ec
        peer_static := pubF Sc
        have_peer_ephemeral := true
        have_peer_static := true
        peer_accepts_encrypt :=
          (buildHandshakePayloadLocked cfgc sc).getD 2 0 &&& 2 != 0
        peer_sends_encrypt :=
          (buildHandshakePayloadLocked cfgc sc).getD 2 0 &&& 1 != 0
        outbound_encrypted :=
          cfgs.encrypt && ((buildHandshakePayloadLocked cfgc sc).getD 2 0 &&& 2 != 0)
        inbound_encrypted :=
          cfgs.decrypt && ((buildHandshakePayloadLocked cfgc sc).getD 2 0 &&& 1 != 0) } := by
    rw [applyHandshakeFieldsLocked, hbc.2.2.1, hbc.2.2.2, hcep, hcsp]
  have hmc : dhMaterialLocked xr (applyHandshakeFieldsLocked cfgc sc
      (buildHandshakePayloadLocked cfgs ss)) =
      some (xr ec (pubF es) ++ (xr ec (pubF Ss) ++ xr Sc (pubF es))) := by
    rw [hc1]
    rw [dhMaterial_spec xr _ rfl rfl (by simpa [hce] using hz1)
      (by simpa [hcs] using hz2) (by simpa [hce] using hz3)]
    simp only [hce, hcs, hcrole]
    simp
  have hms : dhMaterialLocked xr (applyHandshakeFieldsLocked cfgs ss
      (buildHandshakePayloadLocked cfgc sc)) =
      some (xr ec (pubF es) ++ (xr ec (pubF Ss) ++ xr Sc (pubF es))) := by
    rw [hs1]
    rw [dhMaterial_spec xr _ rfl rfl
      (by simp only [hse]; rw [hsym es ec]; exact hz1)
      (by simp only [hss]; rw [hsym Ss ec]; exact hz3)
      (by simp only [hse]; rw [hsym es Sc]; exact hz2)]
    simp only [hse, hss, hsrole]
    rw [hsym es ec, hsym Ss ec, hsym es Sc]
    norm_num
  obtain ⟨okm, hokm, hokmlen⟩ := @hkdfSha256_length_some 96 (by norm_num) (by norm_num)
    (xr ec (pubF es) ++ (xr ec (pubF Ss) ++ xr Sc (pubF es))) nadeHkdfSalt nadeHkdfInfo
  have hdc := deriveKeys_spec xr _ _ okm hmc hokm
  have hds := deriveKeys_spec xr _ _ okm hms hokm
  have hhc := handleHandshake_spec xr cfgc nowc sc _ outc _
    (by rw [hbs.2.1]; norm_num) hbs.1
    (by
      rw [hc1]
      rcases hcpin with hp | hp
      · intro hh
        have := hh.1
        simp only [hp] at this
        exact Bool.false_ne_true this
      · intro hh
        exact hh.2 (by simp only [hp]))
    hdc rfl
  have hhs := handleHandshake_spec xr cfgs nows ss _ outs _
    (by rw [hbc.2.1]; norm_num) hbc.1
    (by
      rw [hs1]
      rcases hspin with hp | hp
      · intro hh
        have := hh.1
        simp only [hp] at this
        exact Bool.false_ne_true this
      · intro hh
        exact hh.2 (by simp only [hp]))
    hds rfl
  refine ⟨_, okm, hmc, hms, ?_, hokm, hokmlen, ?_, ?_, ?_, ?_, ?_, ?_⟩
  · simp only [List.length_append, hdhlen]
  · rw [hhc]
  · rw [hhs]
  · rw [hhc, hhs]
    show (if (applyHandshakeFieldsLocked cfgc sc
        (buildHandshakePayloadLocked cfgs ss)).role = 2 then okm.take 32
      else (okm.drop 32).take 32) =
      (if (applyHandshakeFieldsLocked cfgs ss
        (buildHandshakePayloadLocked cfgc sc)).role = 2 then (okm.drop 32).take 32
      else okm.take 32)
    rw [hc1, hs1]
    show (if sc.role = 2 then okm.take 32 else (okm.drop 32).take 32) =
      (if ss.role = 2 then (okm.drop 32).take 32 else okm.take 32)
    simp [hcrole, hsrole]
  · rw [hhc, hhs]
    show (if (applyHandshakeFieldsLocked cfgc sc
        (buildHandshakePayloadLocked cfgs ss)).role = 2 then (okm.drop 32).take 32
      else okm.take 32) =
      (if (applyHandshakeFieldsLocked cfgs ss
        (buildHandshakePayloadLocked cfgc sc)).role = 2 then okm.take 32
      else (okm.drop 32).take 32)
    rw [hc1, hs1]
    show (if sc.role = 2 then (okm.drop 32).take 32 else okm.take 32) =
      (if ss.role = 2 then okm.take 32 else (okm.drop 32).take 32)
    simp [hcrole, hsrole]
  · rw [hhc, hhs]
    show (if (applyHandshakeFieldsLocked cfgc sc
        (buildHandshakePayloadLocked cfgs ss)).role = 2 then (okm.drop 64).take 12
      else (okm.drop 76).take 12) =
      (if (applyHandshakeFieldsLocked cfgs ss
        (buildHandshakePayloadLocked cfgc sc)).role = 2 then (okm.drop 76).take 12
      else (okm.drop 64).take 12)
    rw [hc1, hs1]
    show (if sc.role = 2 then (okm.drop 64).take 12 else (okm.drop 76).take 12) =
      (if ss.role = 2 then (okm.drop 76).take 12 else (okm.drop 64).take 12)
    simp [hcrole, hsrole]
  · rw [hhc, hhs]
    show (if (applyHandshakeFieldsLocked cfgc sc
        (buildHandshakePayloadLocked cfgs ss)).role = 2 then (okm.drop 76).take 12
      else (okm.drop 64).take 12) =
      (if (applyHandshakeFieldsLocked cfgs ss
        (buildHandshakePayloadLocked cfgc sc)).role = 2 then (okm.drop 64).take 12
      else (okm.drop 76).take 12)
    rw [hc1, hs1]
    show (if sc.role = 2 then (okm.drop 76).take 12 else (okm.drop 64).take 12) =
      (if ss.role = 2 then (okm.drop 64).take 12 else (okm.drop 76).take 12)
    simp [hcrole, hsrole]

/-- Toy scalar multiplication for the C4 witness (constant, hence
trivially DH-symmetric and nonzero). -/
def c4xr : List Nat → List Nat → List Nat := fun _ _ => List.replicate 32 1

/-- Toy base-point multiplication for the C4 witness. -/
def c4pub : List Nat → List Nat := fun _ => List.replicate 32 9

/-- Client session for the C4 witness. -/
def c4client : Session :=
  { zeroSession with
      role := 2
      eph_priv := List.replicate 32 11
      eph_pub := List.replicate 32 9
      static_priv := List.replicate 32 21
      static_pub := List.replicate 32 9 }

/-- Server session for the C4 witness. -/
def c4server : Session :=
  { zeroSession with
      role := 1
      eph_priv := List.replicate 32 12
      eph_pub := List.replicate 32 9
      static_priv := List.replicate 32 22
      static_pub := List.replicate 32 9 }

/-- C4 witness: the symmetry theorem applied to concrete unpinned client
and server sessions. -/
theorem C4_handshake_symmetry_witness :
    ∃ m okm,
      dhMaterialLocked c4xr (applyHandshakeFieldsLocked ⟨true, true⟩ c4client
          (buildHandshakePayloadLocked ⟨true, true⟩ c4server)) = some m ∧
      dhMaterialLocked c4xr (applyHandshakeFieldsLocked ⟨true, true⟩ c4server
          (buildHandshakePayloadLocked ⟨true, true⟩ c4client)) = some m ∧
      m.length = 96 ∧
      hkdfSha256 96 m nadeHkdfSalt nadeHkdfInfo = some okm ∧ okm.length = 96 ∧
      (handleHandshakePayloadLocked c4xr ⟨true, true⟩ 0 c4client
          (buildHandshakePayloadLocked ⟨true, true⟩ c4server) []).1.handshake_complete
        = true ∧
      (handleHandshakePayloadLocked c4xr ⟨true, true⟩ 0 c4server
          (buildHandshakePayloadLocked ⟨true, true⟩ c4client) []).1.handshake_complete
        = true ∧
      (handleHandshakePayloadLocked c4xr ⟨true, true⟩ 0 c4client
          (buildHandshakePayloadLocked ⟨true, true⟩ c4server) []).1.tx_key =
        (handleHandshakePayloadLocked c4xr ⟨true, true⟩ 0 c4server
          (buildHandshakePayloadLocked ⟨true, true⟩ c4client) []).1.rx_key ∧
      (handleHandshakePayloadLocked c4xr ⟨true, true⟩ 0 c4client
          (buildHandshakePayloadLocked ⟨true, true⟩ c4server) []).1.rx_key =
        (handleHandshakePayloadLocked c4xr ⟨true, true⟩ 0 c4server
          (buildHandshakePayloadLocked ⟨true, true⟩ c4client) []).1.tx_key ∧
      (handleHandshakePayloadLocked c4xr ⟨true, true⟩ 0 c4client
          (buildHandshakePayloadLocked ⟨true, true⟩ c4server) []).1.tx_nonce_base =
        (handleHandshakePayloadLocked c4xr ⟨true, true⟩ 0 c4server
          (buildHandshakePayloadLocked ⟨true, true⟩ c4client) []).1.rx_nonce_base ∧
      (handleHandshakePayloadLocked c4xr ⟨true, true⟩ 0 c4client
          (buildHandshakePayloadLocked ⟨true, true⟩ c4server) []).1.rx_nonce_base =
        (handleHandshakePayloadLocked c4xr ⟨true, true⟩ 0 c4server
          (buildHandshakePayloadLocked ⟨true, true⟩ c4client) []).1.tx_nonce_base :=
  C4_handshake_symmetry c4xr c4pub ⟨true, true⟩ ⟨true, true⟩ 0 0 c4client c4server
    (List.replicate 32 11) (List.replicate 32 12)
    (List.replicate 32 21) (List.replicate 32 22) [] []
    (fun _ _ => by simp [c4xr]) (fun _ => by simp [c4pub]) (fun _ _ => rfl)
    rfl rfl rfl rfl rfl rfl rfl rfl rfl rfl
    (Or.inl rfl) (Or.inl rfl) (by decide) (by decide) (by decide)

/-! ## Claim C1 -/

/-- Output size of the nibble-packing loop: two samples per byte, the
trailing half-filled byte flushed. -/
theorem adpcmEncodeGo_length (samples : List Int) :
    ∀ (p : Int) (i : Nat) (out : List Nat),
      ((adpcmEncodeGo p i none out samples).1.length =
        out.length + (samples.length + 1) / 2) ∧
      ∀ lo, (adpcmEncodeGo p i (some lo) out samples).1.length =
        out.length + samples.length / 2 + 1 := by
  induction samples with
  | nil =>
      intro p i out
      constructor
      · simp [adpcmEncodeGo]
      · intro lo
        simp [adpcmEncodeGo]
  | cons s rest ih =>
      intro p i out
      constructor
      · rw [adpcmEncodeGo]
        have := (ih (adpcmEncodeSample p i s).2.1 (adpcmEncodeSample p i s).2.2 out).2
          (adpcmEncodeSample p i s).1
        rw [this]
        simp only [List.length_cons]
        omega
      · intro lo
        rw [adpcmEncodeGo]
        have := (ih (adpcmEncodeSample p i s).2.1 (adpcmEncodeSample p i s).2.2
          (out ++ [lo ||| ((adpcmEncodeSample p i s).1 <<< 4)])).1
        rw [this]
        simp only [List.length_cons, List.length_append, List.length_cons,
          List.length_nil]
        omega

/-- `adpcm_encode_block` of a full 320-sample frame into the 200-byte
buffer always produces 4 + 160 = 164 bytes. -/
theorem adpcmEncodeBlock_length_320 (samples : List Int) (st : AdpcmState)
    (h : samples.length = 320) :
    (adpcmEncodeBlock samples 200 st).1.length = 164 := by
  rw [adpcmEncodeBlock, if_neg (by omega)]
  dsimp only
  rw [if_neg (by rw [h]; norm_num)]
  have hgo := (adpcmEncodeGo_length samples
    (if st.initialized then st else ⟨samples.getD 0 0, 0, true⟩).predictor
    (if st.initialized then st else ⟨samples.getD 0 0, 0, true⟩).index []).1
  simp only [List.length_append, List.length_cons, List.length_nil, hgo,
    List.length_nil, h]

/-- Prepending the counter base modulo `2^64` does not change the nonce
sequence. -/
theorem nonceSeq_mod (base : List Nat) (t n : Nat) :
    nonceSeq base (t % 2 ^ 64) n = nonceSeq base t n := by
  unfold nonceSeq
  refine List.map_congr_left ?_
  intro i _
  rw [Nat.mod_add_mod]

/-- Peeling the first element of a nonce sequence. -/
theorem nonceSeq_succ (base : List Nat) (t n : Nat) :
    nonceSeq base t (n + 1) =
      (t % 2 ^ 64, composeNonce base (t % 2 ^ 64)) :: nonceSeq base (t + 1) n := by
  unfold nonceSeq
  rw [List.range_succ_eq_map]
  simp only [List.map_cons, Nat.add_zero, List.map_map]
  refine congrArg _ ?_
  refine List.map_congr_left ?_
  intro i _
  simp only [Function.comp_apply]
  rw [(by omega : t + (i + 1) = t + 1 + i)]

/-- Concatenating consecutive nonce sequences. -/
theorem nonceSeq_append (base : List Nat) (t k n : Nat) :
    nonceSeq base t k ++ nonceSeq base (t + k) n = nonceSeq base t (k + n) := by
  unfold nonceSeq
  rw [List.range_add, List.map_append, List.map_map]
  refine congrArg _ ?_
  refine List.map_congr_left ?_
  intro i _
  simp only [Function.comp_apply]
  rw [(by omega : t + (k + i) = t + k + i)]

/-- Zero-length nonce sequence. -/
theorem nonceSeq_zero (base : List Nat) (t : Nat) : nonceSeq base t 0 = [] := rfl

/-- The audio-drain loop on the encrypted path: one frame is sealed per
320-sample unit with consecutive `tx_counter` values (wrapping at
`2^64`), the nonce of each sealed frame is `compose_nonce` of the
pre-increment counter, and the TX key, nonce base and the two gating
flags are untouched. -/
theorem qaGo_sealed_spec (sealFn : List Nat → List Nat → List Nat → List Nat)
    (s : Session) (mic : List Int) (out : List Nat) (acc : List (Nat × List Nat)) :
    s.outbound_encrypted = true → s.tx_aead_ready = true →
    s.tx_counter < 2 ^ 64 →
    (queueAudioFramesGo sealFn s mic out acc).1.tx_counter =
        (s.tx_counter + mic.length / 320) % 2 ^ 64 ∧
    (queueAudioFramesGo sealFn s mic out acc).2.2.2 =
        acc ++ nonceSeq s.tx_nonce_base s.tx_counter (mic.length / 320) ∧
    (queueAudioFramesGo sealFn s mic out acc).1.tx_key = s.tx_key ∧
    (queueAudioFramesGo sealFn s mic out acc).1.tx_nonce_base = s.tx_nonce_base ∧
    (queueAudioFramesGo sealFn s mic out acc).1.outbound_encrypted = true ∧
    (queueAudioFramesGo sealFn s mic out acc).1.tx_aead_ready = true := by
  induction s, mic, out, acc using queueAudioFramesGo.induct sealFn with
  | case1 s mic out acc hlt =>
      intro h1 h2 h3
      rw [queueAudioFramesGo, dif_pos hlt, Nat.div_eq_of_lt hlt]
      refine ⟨?_, ?_, rfl, rfl, h1, h2⟩
      · show s.tx_counter = (s.tx_counter + 0) % 2 ^ 64
        rw [Nat.add_zero, Nat.mod_eq_of_lt h3]
      · show acc = acc ++ nonceSeq s.tx_nonce_base s.tx_counter 0
        rw [nonceSeq_zero, List.append_nil]
  | case2 s mic out acc hlt pcm adpcm hadp =>
      intro h1 h2 h3
      refine absurd hadp ?_
      show ¬(adpcmEncodeBlock (mic.take 320) 200 s.enc_state).1.length = 0
      rw [adpcmEncodeBlock_length_320 _ _ (by rw [List.length_take]; omega)]
      norm_num
  | case3 s mic out acc hlt pcm adpcm hadp hbig =>
      intro h1 h2 h3
      refine absurd hbig ?_
      show ¬2048 < (adpcmEncodeBlock (mic.take 320) 200 s.enc_state).1.length + 8
      rw [adpcmEncodeBlock_length_320 _ _ (by rw [List.length_take]; omega)]
      norm_num
  | case4 s mic out acc hlt pcm mic2 adpcm enc2 hadp hbig seq s1 plain hflags nonce cipher s2 ih =>
      intro h1 h2 h3
      set_option linter.deprecated false in
      unfold_let s2 s1 mic2 pcm at ih
      have hadp320 :
          ((adpcmEncodeBlock (mic.take 320) 200 s.enc_state).1).length = 164 :=
        adpcmEncodeBlock_length_320 _ _ (by rw [List.length_take]; omega)
      rw [queueAudioFramesGo, dif_neg hlt]
      dsimp only
      rw [if_neg (by rw [hadp320]; norm_num),
        if_neg (by rw [hadp320]; norm_num), if_pos hflags]
      obtain ⟨ha, hb, hc, hd, he, hf⟩ := ih h1 h2 (Nat.mod_lt _ (by norm_num))
      have hdiv : (mic.drop 320).length / 320 + 1 = mic.length / 320 := by
        rw [List.length_drop]
        omega
      refine ⟨?_, ?_, hc, hd, he, hf⟩
      · rw [ha]
        show ((s.tx_counter + 1) % 2 ^ 64 + (mic.drop 320).length / 320) % 2 ^ 64 =
          (s.tx_counter + mic.length / 320) % 2 ^ 64
        rw [Nat.mod_add_mod,
          (by omega : s.tx_counter + 1 + (mic.drop 320).length / 320 =
            s.tx_counter + ((mic.drop 320).length / 320 + 1)), hdiv]
      · rw [hb]
        show acc ++ [(s.tx_counter, composeNonce s.tx_nonce_base s.tx_counter)] ++
            nonceSeq s.tx_nonce_base ((s.tx_counter + 1) % 2 ^ 64)
              ((mic.drop 320).length / 320) =
          acc ++ nonceSeq s.tx_nonce_base s.tx_counter (mic.length / 320)
        rw [nonceSeq_mod, ← hdiv,
          (by omega : (mic.drop 320).length / 320 + 1 =
            (mic.drop 320).length / 320 + 1), nonceSeq_succ,
          Nat.mod_eq_of_lt h3]
        simp only [List.append_assoc, List.singleton_append]
  | case5 s mic out acc hlt pcm mic2 adpcm enc2 hadp hbig seq s1 plain hflags ih =>
      intro h1 h2 h3
      refine absurd ?_ hflags
      exact ⟨h1, h2⟩

/-- The audio-drain loop with at least one gating flag off: no frame is
AEAD-sealed, and the TX counter, key, nonce base and both gating flags
are untouched. -/
theorem qaGo_noseal (sealFn : List Nat → List Nat → List Nat → List Nat)
    (s : Session) (mic : List Int) (out : List Nat) (acc : List (Nat × List Nat)) :
    ¬(s.outbound_encrypted = true ∧ s.tx_aead_ready = true) →
    (queueAudioFramesGo sealFn s mic out acc).2.2.2 = acc ∧
    (queueAudioFramesGo sealFn s mic out acc).1.tx_counter = s.tx_counter ∧
    (queueAudioFramesGo sealFn s mic out acc).1.tx_key = s.tx_key ∧
    (queueAudioFramesGo sealFn s mic out acc).1.tx_nonce_base = s.tx_nonce_base ∧
    (queueAudioFramesGo sealFn s mic out acc).1.outbound_encrypted =
      s.outbound_encrypted ∧
    (queueAudioFramesGo sealFn s mic out acc).1.tx_aead_ready = s.tx_aead_ready := by
  induction s, mic, out, acc using queueAudioFramesGo.induct sealFn with
  | case1 s mic out acc hlt =>
      intro hns
      rw [queueAudioFramesGo, dif_pos hlt]
      exact ⟨rfl, rfl, rfl, rfl, rfl, rfl⟩
  | case2 s mic out acc hlt pcm adpcm hadp =>
      intro hns
      refine absurd hadp ?_
      show ¬(adpcmEncodeBlock (mic.take 320) 200 s.enc_state).1.length = 0
      rw [adpcmEncodeBlock_length_320 _ _ (by rw [List.length_take]; omega)]
      norm_num
  | case3 s mic out acc hlt pcm adpcm hadp hbig =>
      intro hns
      refine absurd hbig ?_
      show ¬2048 < (adpcmEncodeBlock (mic.take 320) 200 s.enc_state).1.length + 8
      rw [adpcmEncodeBlock_length_320 _ _ (by rw [List.length_take]; omega)]
      norm_num
  | case4 s mic out acc hlt pcm mic2 adpcm enc2 hadp hbig seq s1 plain hflags nonce cipher s2 ih =>
      intro hns
      exact absurd (⟨hflags.1, hflags.2⟩ :
        s.outbound_encrypted = true ∧ s.tx_aead_ready = true) hns
  | case5 s mic out acc hlt pcm mic2 adpcm enc2 hadp hbig seq s1 plain hflags ih =>
      intro hns
      have hadp320 :
          ((adpcmEncodeBlock (mic.take 320) 200 s.enc_state).1).length = 164 :=
        adpcmEncodeBlock_length_320 _ _ (by rw [List.length_take]; omega)
      rw [queueAudioFramesGo, dif_neg hlt]
      dsimp only
      rw [if_neg (by rw [hadp320]; norm_num),
        if_neg (by rw [hadp320]; norm_num), if_neg hflags]
      exact ih hns

/-- `queue_audio_frames_locked`: whatever the gating flags, the sealed
frames carry consecutive counters starting at the current `tx_counter`,
which then advances by exactly the number of sealed frames (mod `2^64`);
the TX key and nonce base never change. -/
theorem qaLocked_spec (sealFn : List Nat → List Nat → List Nat → List Nat)
    (s : Session) (mic : List Int) (out : List Nat)
    (h3 : s.tx_counter < 2 ^ 64) :
    ∃ k,
      (queueAudioFramesLocked sealFn s mic out).2.2.2 =
        nonceSeq s.tx_nonce_base s.tx_counter k ∧
      (queueAudioFramesLocked sealFn s mic out).1.tx_counter =
        (s.tx_counter + k) % 2 ^ 64 ∧
      (queueAudioFramesLocked sealFn s mic out).1.tx_key = s.tx_key ∧
      (queueAudioFramesLocked sealFn s mic out).1.tx_nonce_base =
        s.tx_nonce_base := by
  unfold queueAudioFramesLocked
  by_cases hc : s.handshake_complete = true
  · rw [if_neg (by simp [hc])]
    by_cases hf : s.outbound_encrypted = true ∧ s.tx_aead_ready = true
    · obtain ⟨ha, hb, hk, hn, _, _⟩ :=
        qaGo_sealed_spec sealFn s mic out [] hf.1 hf.2 h3
      exact ⟨mic.length / 320, by rw [hb, List.nil_append], ha, hk, hn⟩
    · obtain ⟨ha, hb, hk, hn, _, _⟩ := qaGo_noseal sealFn s mic out [] hf
      refine ⟨0, by rw [ha, nonceSeq_zero], ?_, hk, hn⟩
      rw [hb, Nat.add_zero, Nat.mod_eq_of_lt h3]
  · rw [if_pos (by simp [hc])]
    exact ⟨0, rfl, by rw [Nat.add_zero, Nat.mod_eq_of_lt h3], rfl, rfl⟩

/-- `queue_handshake_locked` only ever touches `last_handshake_ms` and the
outgoing ring. -/
theorem queueHandshake_tx (cfg : Config) (now : Nat) (s : Session)
    (out : List Nat) :
    (queueHandshakeLocked cfg now s out).1.tx_counter = s.tx_counter ∧
    (queueHandshakeLocked cfg now s out).1.tx_key = s.tx_key ∧
    (queueHandshakeLocked cfg now s out).1.tx_nonce_base = s.tx_nonce_base ∧
    (queueHandshakeLocked cfg now s out).1.handshake_complete =
      s.handshake_complete := by
  unfold queueHandshakeLocked
  repeat' split
  all_goals exact ⟨rfl, rfl, rfl, rfl⟩

/-- The optional trailing keepalive never touches the TX crypto state. -/
theorem keepalive_opt_tx (c : Prop) [Decidable c] (now : Nat) (r : Session)
    (o : List Nat) :
    (if c then queueKeepaliveLocked now r o else (r, o)).1.tx_counter =
      r.tx_counter ∧
    (if c then queueKeepaliveLocked now r o else (r, o)).1.tx_key = r.tx_key ∧
    (if c then queueKeepaliveLocked now r o else (r, o)).1.tx_nonce_base =
      r.tx_nonce_base := by
  split <;> exact ⟨rfl, rfl, rfl⟩

/-- `build_outgoing_locked`: the sealed frames of one pipeline run carry
consecutive counters starting at the current `tx_counter`, which advances
by their number (mod `2^64`); TX key and nonce base are unchanged. -/
theorem buildOutgoing_spec (pr : Prims) (now : Nat) (g : Global)
    (h3 : g.session.tx_counter < 2 ^ 64) :
    ∃ k,
      (buildOutgoingLocked pr now g).2 =
        nonceSeq g.session.tx_nonce_base g.session.tx_counter k ∧
      (buildOutgoingLocked pr now g).1.session.tx_counter =
        (g.session.tx_counter + k) % 2 ^ 64 ∧
      (buildOutgoingLocked pr now g).1.session.tx_key = g.session.tx_key ∧
      (buildOutgoingLocked pr now g).1.session.tx_nonce_base =
        g.session.tx_nonce_base := by
  unfold buildOutgoingLocked
  by_cases hact : g.session.active = true
  case neg =>
    rw [if_pos (by simp [hact])]
    exact ⟨0, by rw [nonceSeq_zero], by rw [Nat.add_zero, Nat.mod_eq_of_lt h3],
      rfl, rfl⟩
  case pos =>
    rw [if_neg (by simp [hact])]
    dsimp only
    set S := if ¬g.session.handshake_complete = true ∨
        ¬g.session.handshake_acknowledged = true then
      queueHandshakeLocked g.config now g.session g.outRing
    else (g.session, g.outRing) with hS
    have hpres : S.1.tx_counter = g.session.tx_counter ∧
        S.1.tx_key = g.session.tx_key ∧
        S.1.tx_nonce_base = g.session.tx_nonce_base ∧
        S.1.handshake_complete = g.session.handshake_complete := by
      rw [hS]
      split
      · exact queueHandshake_tx g.config now g.session g.outRing
      · exact ⟨rfl, rfl, rfl, rfl⟩
    by_cases hcomp : S.1.handshake_complete = true
    case neg =>
      rw [if_pos (by simp [hcomp])]
      refine ⟨0, by rw [nonceSeq_zero], ?_, ?_, ?_⟩
      · show S.1.tx_counter = (g.session.tx_counter + 0) % 2 ^ 64
        rw [hpres.1, Nat.add_zero, Nat.mod_eq_of_lt h3]
      · exact hpres.2.1
      · exact hpres.2.2.1
    case pos =>
      rw [if_neg (by simp [hcomp])]
      dsimp only
      obtain ⟨k, hseal, htx, hkey, hbase⟩ :=
        qaLocked_spec pr.aeadSeal S.1 g.micRing S.2 (by rw [hpres.1]; exact h3)
      obtain ⟨hk1, hk2, hk3⟩ := keepalive_opt_tx
        (1000 < now -
          (queueAudioFramesLocked pr.aeadSeal S.1 g.micRing S.2).1.last_keepalive_ms)
        now (queueAudioFramesLocked pr.aeadSeal S.1 g.micRing S.2).1
        (queueAudioFramesLocked pr.aeadSeal S.1 g.micRing S.2).2.2.1
      refine ⟨k, ?_, ?_, ?_, ?_⟩
      · show (queueAudioFramesLocked pr.aeadSeal S.1 g.micRing S.2).2.2.2 =
          nonceSeq g.session.tx_nonce_base g.session.tx_counter k
        rw [hseal, hpres.2.2.1, hpres.1]
      · show (if 1000 < now -
            (queueAudioFramesLocked pr.aeadSeal S.1 g.micRing S.2).1.last_keepalive_ms
          then queueKeepaliveLocked now
            (queueAudioFramesLocked pr.aeadSeal S.1 g.micRing S.2).1
            (queueAudioFramesLocked pr.aeadSeal S.1 g.micRing S.2).2.2.1
          else ((queueAudioFramesLocked pr.aeadSeal S.1 g.micRing S.2).1,
            (queueAudioFramesLocked pr.aeadSeal S.1 g.micRing S.2).2.2.1)).1.tx_counter =
          (g.session.tx_counter + k) % 2 ^ 64
        rw [hk1, htx, hpres.1]
      · show (if 1000 < now -
            (queueAudioFramesLocked pr.aeadSeal S.1 g.micRing S.2).1.last_keepalive_ms
          then queueKeepaliveLocked now
            (queueAudioFramesLocked pr.aeadSeal S.1 g.micRing S.2).1
            (queueAudioFramesLocked pr.aeadSeal S.1 g.micRing S.2).2.2.1
          else ((queueAudioFramesLocked pr.aeadSeal S.1 g.micRing S.2).1,
            (queueAudioFramesLocked pr.aeadSeal S.1 g.micRing S.2).2.2.1)).1.tx_key =
          g.session.tx_key
        rw [hk2, hkey, hpres.2.1]
      · show (if 1000 < now -
            (queueAudioFramesLocked pr.aeadSeal S.1 g.micRing S.2).1.last_keepalive_ms
          then queueKeepaliveLocked now
            (queueAudioFramesLocked pr.aeadSeal S.1 g.micRing S.2).1
            (queueAudioFramesLocked pr.aeadSeal S.1 g.micRing S.2).2.2.1
          else ((queueAudioFramesLocked pr.aeadSeal S.1 g.micRing S.2).1,
            (queueAudioFramesLocked pr.aeadSeal S.1 g.micRing S.2).2.2.1)).1.tx_nonce_base =
          g.session.tx_nonce_base
        rw [hk3, hbase, hpres.2.2.1]

/-- One atomic pipeline call: the sealed frames carry consecutive counters
starting at the current `tx_counter`, which advances by their number
(mod `2^64`); TX key and nonce base are unchanged. -/
theorem stepMicNet_spec (pr : Prims) (g : Global) (op : MicNetOp)
    (h3 : g.session.tx_counter < 2 ^ 64) :
    ∃ k,
      (stepMicNet pr g op).2 =
        nonceSeq g.session.tx_nonce_base g.session.tx_counter k ∧
      (stepMicNet pr g op).1.session.tx_counter =
        (g.session.tx_counter + k) % 2 ^ 64 ∧
      (stepMicNet pr g op).1.session.tx_key = g.session.tx_key ∧
      (stepMicNet pr g op).1.session.tx_nonce_base = g.session.tx_nonce_base := by
  cases op with
  | feedMic pcm =>
      have aux : ∀ cap : Nat,
          (({ g with micRing := pushRing cap g.micRing pcm },
            (0 : Int))).1.session = g.session := fun cap => rfl
      have hfm : (nadeFeedMicFrame g pcm).1.session = g.session := by
        unfold nadeFeedMicFrame
        split
        · rfl
        · split
          · rfl
          · exact aux 65536
      refine ⟨0, by rw [nonceSeq_zero]; rfl, ?_, ?_, ?_⟩
      · show (nadeFeedMicFrame g pcm).1.session.tx_counter =
          (g.session.tx_counter + 0) % 2 ^ 64
        rw [hfm, Nat.add_zero, Nat.mod_eq_of_lt h3]
      · show (nadeFeedMicFrame g pcm).1.session.tx_key = g.session.tx_key
        rw [hfm]
      · show (nadeFeedMicFrame g pcm).1.session.tx_nonce_base =
          g.session.tx_nonce_base
        rw [hfm]
  | genOut now maxLen =>
      by_cases hml : maxLen = 0
      · subst hml
        refine ⟨0, ?_, ?_, ?_, ?_⟩
        · rw [nonceSeq_zero]
          rfl
        · show g.session.tx_counter = (g.session.tx_counter + 0) % 2 ^ 64
          rw [Nat.add_zero, Nat.mod_eq_of_lt h3]
        · rfl
        · rfl
      · obtain ⟨k, hseal, htx, hkey, hbase⟩ := buildOutgoing_spec pr now g h3
        refine ⟨k, ?_, ?_, ?_, ?_⟩
        · show (nadeGenerateOutgoingFrame pr now maxLen g).2.2 =
            nonceSeq g.session.tx_nonce_base g.session.tx_counter k
          rw [nadeGenerateOutgoingFrame, if_neg hml]
          exact hseal
        · show (nadeGenerateOutgoingFrame pr now maxLen g).1.session.tx_counter =
            (g.session.tx_counter + k) % 2 ^ 64
          rw [nadeGenerateOutgoingFrame, if_neg hml]
          exact htx
        · show (nadeGenerateOutgoingFrame pr now maxLen g).1.session.tx_key =
            g.session.tx_key
          rw [nadeGenerateOutgoingFrame, if_neg hml]
          exact hkey
        · show (nadeGenerateOutgoingFrame pr now maxLen g).1.session.tx_nonce_base =
            g.session.tx_nonce_base
          rw [nadeGenerateOutgoingFrame, if_neg hml]
          exact hbase

/-- A whole interleaving: all sealed frames across all calls, in order,
carry consecutive counters starting at the initial `tx_counter`. -/
theorem runMicNet_spec (pr : Prims) (ops : List MicNetOp) :
    ∀ g : Global, g.session.tx_counter < 2 ^ 64 →
    ∃ n,
      (runMicNet pr g ops).2 =
        nonceSeq g.session.tx_nonce_base g.session.tx_counter n ∧
      (runMicNet pr g ops).1.session.tx_counter =
        (g.session.tx_counter + n) % 2 ^ 64 ∧
      (runMicNet pr g ops).1.session.tx_key = g.session.tx_key ∧
      (runMicNet pr g ops).1.session.tx_nonce_base = g.session.tx_nonce_base := by
  induction ops with
  | nil =>
      intro g h3
      exact ⟨0, by rw [nonceSeq_zero]; rfl,
        by show g.session.tx_counter = (g.session.tx_counter + 0) % 2 ^ 64
           rw [Nat.add_zero, Nat.mod_eq_of_lt h3], rfl, rfl⟩
  | cons op ops ih =>
      intro g h3
      obtain ⟨k1, hs1, ht1, hk1, hb1⟩ := stepMicNet_spec pr g op h3
      obtain ⟨k2, hs2, ht2, hk2, hb2⟩ := ih (stepMicNet pr g op).1
        (by rw [ht1]; exact Nat.mod_lt _ (by norm_num))
      refine ⟨k1 + k2, ?_, ?_, ?_, ?_⟩
      · show (stepMicNet pr g op).2 ++
            (runMicNet pr (stepMicNet pr g op).1 ops).2 =
          nonceSeq g.session.tx_nonce_base g.session.tx_counter (k1 + k2)
        rw [hs1, hs2, hb1, ht1, nonceSeq_mod, nonceSeq_append]
      · show (runMicNet pr (stepMicNet pr g op).1 ops).1.session.tx_counter =
          (g.session.tx_counter + (k1 + k2)) % 2 ^ 64
        rw [ht2, ht1, Nat.mod_add_mod, Nat.add_assoc]
      · show (runMicNet pr (stepMicNet pr g op).1 ops).1.session.tx_key =
          g.session.tx_key
        rw [hk2, hk1]
      · show (runMicNet pr (stepMicNet pr g op).1 ops).1.session.tx_nonce_base =
          g.session.tx_nonce_base
        rw [hb2, hb1]

/-- C1: for every interleaving of `nade_feed_mic_frame` /
`nade_generate_outgoing_frame` calls (each atomic under `g_session_mutex`),
the AEAD-sealed Cipher frames use the nonces `compose_nonce(tx_nonce_base,
tx_counter)` for consecutive counter values starting at the initial
`tx_counter`: the counter is incremented exactly once per sealed frame
(mod `2^64`), the TX key and nonce base never change, and as long as no
more than `2^64` frames are sealed, no `(tx_key, nonce)` pair is used for
two different frames. -/
theorem C1_nonce_uniqueness (pr : Prims) (g : Global) (ops : List MicNetOp)
    (ht : g.session.tx_counter < 2 ^ 64) :
    ∃ n,
      (runMicNet pr g ops).2 =
        nonceSeq g.session.tx_nonce_base g.session.tx_counter n ∧
      (runMicNet pr g ops).1.session.tx_counter =
        (g.session.tx_counter + n) % 2 ^ 64 ∧
      (runMicNet pr g ops).1.session.tx_key = g.session.tx_key ∧
      (runMicNet pr g ops).1.session.tx_nonce_base =
        g.session.tx_nonce_base ∧
      (n ≤ 2 ^ 64 →
        ((runMicNet pr g ops).2.map
          fun e => (g.session.tx_key, e.2)).Nodup) := by
  obtain ⟨n, hs, htx, hk, hb⟩ := runMicNet_spec pr ops g ht
  refine ⟨n, hs, htx, hk, hb, ?_⟩
  intro hn
  rw [hs]
  unfold nonceSeq
  rw [List.map_map]
  refine List.Nodup.map_on ?_ (List.nodup_range _)
  intro i hi j hj hfe
  have h1 : composeNonce g.session.tx_nonce_base
        ((g.session.tx_counter + i) % 2 ^ 64) =
      composeNonce g.session.tx_nonce_base
        ((g.session.tx_counter + j) % 2 ^ 64) := congrArg Prod.snd hfe
  have h2 := composeNonce_inj g.session.tx_nonce_base
    (Nat.mod_lt _ (by norm_num)) (Nat.mod_lt _ (by norm_num)) h1
  have hi' := List.mem_range.mp hi
  have hj' := List.mem_range.mp hj
  have hpow : (2 : Nat) ^ 64 = 18446744073709551616 := by norm_num
  rw [hpow] at h2 hn
  omega

/-- C1 witness: the theorem applied to the post-handshake fixture and the
interleaving "feed 640 mic samples, then generate an outgoing frame". -/
theorem C1_nonce_uniqueness_witness :
    fixtureGlobal.session.tx_counter < 2 ^ 64 ∧
    ∃ n,
      (runMicNet fixturePrims fixtureGlobal
          [MicNetOp.feedMic (List.replicate 640 0), MicNetOp.genOut 0 4096]).2 =
        nonceSeq fixtureGlobal.session.tx_nonce_base
          fixtureGlobal.session.tx_counter n ∧
      (runMicNet fixturePrims fixtureGlobal
          [MicNetOp.feedMic (List.replicate 640 0),
            MicNetOp.genOut 0 4096]).1.session.tx_counter =
        (fixtureGlobal.session.tx_counter + n) % 2 ^ 64 ∧
      (runMicNet fixturePrims fixtureGlobal
          [MicNetOp.feedMic (List.replicate 640 0),
            MicNetOp.genOut 0 4096]).1.session.tx_key =
        fixtureGlobal.session.tx_key ∧
      (runMicNet fixturePrims fixtureGlobal
          [MicNetOp.feedMic (List.replicate 640 0),
            MicNetOp.genOut 0 4096]).1.session.tx_nonce_base =
        fixtureGlobal.session.tx_nonce_base ∧
      (n ≤ 2 ^ 64 →
        ((runMicNet fixturePrims fixtureGlobal
            [MicNetOp.feedMic (List.replicate 640 0),
              MicNetOp.genOut 0 4096]).2.map
          fun e => (fixtureGlobal.session.tx_key, e.2)).Nodup) :=
  ⟨by decide, C1_nonce_uniqueness fixturePrims fixtureGlobal
    [MicNetOp.feedMic (List.replicate 640 0), MicNetOp.genOut 0 4096]
    (by decide)⟩
